import Mathlib

/-!
# Verification of the FreeImageRe core against its specification

Shallow embedding of the two core subsystems of the FreeImageRe image
library:

* the generic pixel-encoding dispatch engine (`FreeImage_MakeHistogram`,
  `FreeImage_AdjustCurve`, `FreeImage_GetAdjustColorsLookupTable` from the
  colors translation unit), and
* the format plugin registry (`PluginList`, `FreeImage_SaveToHandle`,
  `FreeImage_ValidateFIF`, `FreeImage_GetFIFFromFilename` from
  `Source/FreeImage/Plugin.cpp`).

Machine integers are embedded as `Nat`/`Int` (the C++ counters are
`uint32_t`; counts here are unbounded naturals, which agrees with the code
whenever no counter overflows).  C++ `float`/`double` channel values are
embedded as exact rationals `ℚ`; the external complex-magnitude routine
(`std::abs` on `std::complex`) and the external `pow` from libm are taken
as parameters of the model.  Caller-supplied histogram buffers are
embedded as functions `Nat → Nat` from slot index to stored counter, with
distinct buffers assumed not to alias (the C++ contract).
-/

namespace FreeImageRe

/-! ## Histogram buffer primitives

A caller buffer is a map from slot index to its `uint32_t` content.  The
engine touches only the slots `i * stride` for `i < binsNumber`. -/

/-- Write value `v` into slot `j` of buffer `m`. -/
def updateSlot (m : Nat → Nat) (j v : Nat) : Nat → Nat :=
  fun k => if k = j then v else m k

/-- Increment slot `j` of buffer `m` (the `++mHist[i * mStride]` of
`HistogramBuilder::Add`). -/
def bumpSlot (m : Nat → Nat) (j : Nat) : Nat → Nat :=
  fun k => if k = j then m k + 1 else m k

/-- Embedding of `ClearHistogram`: zero the first `bins` strided slots of a buffer
(the loop `for (i = 0; i < binsNumber; ++i, hist += stride) *hist = 0`;
the `stride == 1` memset branch is extensionally the same loop). -/
def ClearHistogram (m : Nat → Nat) (stride bins : Nat) : Nat → Nat :=
  (List.range bins).foldl (fun acc i => updateSlot acc (i * stride) 0) m

/-- One full-bitmap traversal of `HistogramBuilder::Add` for a single
builder: for each pixel, compute the bin index and increment the strided
slot. -/
def runHist (m : Nat → Nat) (stride : Nat) (idx : α → Nat) (ps : List α) : Nat → Nat :=
  ps.foldl (fun acc p => bumpSlot acc (idx p * stride)) m

/-- The sum of the `bins` strided entries of a buffer — the quantity the
spec's mass-conservation property talks about. -/
def histSum (m : Nat → Nat) (stride bins : Nat) : Nat :=
  ∑ i ∈ Finset.range bins, m (i * stride)


/-! ## Pixel and bitmap data model

The pixel encodings recognized by `FreeImage_MakeHistogram`'s dispatch
switch.  Constructors that the engine treats identically are merged and
documented:

* `rgb24` embeds `FIT_BITMAP` at 24 bpp with color type `FIC_RGB` or
  `FIC_YUV` (same byte layout, same dispatch arm);
* `rgba32` embeds `FIT_BITMAP` at 32 bpp with `FIC_RGBALPHA` or `FIC_YUV`;
* `realF` embeds `FIT_FLOAT` and `FIT_DOUBLE` (both are one rational
  channel here, identical dispatch);
* `rgbF` embeds `FIT_RGBF` and `FIT_RGBAF`: every selector of that arm
  reads only red/green/blue, and `StripAlpha` drops alpha from the bounds
  scan, so the alpha channel is unobservable and omitted;
* `cplx` embeds `FIT_COMPLEX` and `FIT_COMPLEXF`;
* `rgb16` embeds `FIT_RGB16`/`FIT_RGBA16`, `rgb32w` embeds
  `FIT_RGB32`/`FIT_RGBA32` (alpha again unobservable);
* `bitmapOther` embeds every `FIT_BITMAP` bpp/color-type combination not
  matched by the three recognized arms (bpp 1/4/16, …);
* `other` embeds the remaining image types (the switch's `default`). -/

/-- A direct-color integer pixel with three channels (channel values as
naturals of the encoding's native width). -/
structure PixelRGB where
  red : Nat
  green : Nat
  blue : Nat

/-- A direct-color integer pixel with an alpha channel. -/
structure PixelRGBA where
  red : Nat
  green : Nat
  blue : Nat
  alpha : Nat

/-- A three-channel floating-point pixel (channels as exact rationals). -/
structure PixelRGBQ where
  red : ℚ
  green : ℚ
  blue : ℚ

/-- A complex pixel: real and imaginary parts. -/
structure PixelC where
  r : ℚ
  i : ℚ

/-- Pixel payloads, by dispatch arm of `FreeImage_MakeHistogram`. -/
inductive BitmapData where
  | u8 (ps : List Nat)
  | pal8 (pal : List PixelRGBA) (ps : List Nat)
  | rgb24 (ps : List PixelRGB)
  | rgba32 (ps : List PixelRGBA)
  | bitmapOther
  | realF (ps : List ℚ)
  | rgbF (ps : List PixelRGBQ)
  | cplx (ps : List PixelC)
  | rgb16 (ps : List PixelRGB)
  | rgb32w (ps : List PixelRGB)
  | u16 (ps : List Nat)
  | u32 (ps : List Nat)
  | i16 (ps : List Int)
  | i32 (ps : List Int)
  | other

/-- A bitmap: dimensions, the `FreeImage_HasPixels` payload flag, and the
pixel data. -/
structure Bitmap where
  width : Nat
  height : Nat
  hasPixels : Bool
  data : BitmapData

/-! ## Bin index mapping (§4.4 of the spec) -/

/-- The final `std::min(i, binsNumber - 1)` clamp shared by every bin
index calculation. -/
def clampBin (bins j : Nat) : Nat := min j (bins - 1)

/-- Embedding of `HistogramUInt`'s bin index for a channel of width `W` bits: the raw
value when `binsNumber = 2^W` (`CalculateBinIndexWithoutScale`), otherwise
a widened multiply and shift (`CalculateBinIndexWithScale`); both clamped.
The widening type (`ToWiderType`, declared outside `src/`) is modelled
from the spec as exact: the intermediate product is not truncated. -/
def binIdxU (W bins v : Nat) : Nat :=
  if bins = 2 ^ W then clampBin bins v
  else clampBin bins (v * bins / 2 ^ W)

/-- Embedding of `HistogramSInt`'s bin index (`CalculateBinIndexSigned`): remap by
subtracting the type's minimum `-2^(W-1)`, then the scaled unsigned
mapping over the full `2^W` range. -/
def binIdxS (W bins : Nat) (v : Int) : Nat :=
  clampBin bins ((v + 2 ^ (W - 1)).toNat * bins / 2 ^ W)

/-- Embedding of `HistogramFloat`'s `CalculateBinIndex`: linear range mapping with the
precomputed factor `div = binsNumber / (max - min)`, truncated toward zero
after a floor at 0, then clamped. -/
def binIdxF (bins : Nat) (lo hi v : ℚ) : Nat :=
  clampBin bins (Nat.floor (max 0 ((v - lo) * ((bins : ℚ) / (hi - lo)))))

/-! ## Channel selectors -/

/-- Modelled from the spec: the `Brightness` functor used by
`SelectRgbBrightness` lives in a pixel-access header that is not under
`src/`; per §4.5 it is "a fixed weighted combination of the three color
channels, computed at the channel's native numeric width".  Integer form,
with the library's grey weights. -/
def greyU (r g b : Nat) : Nat := (77 * r + 150 * g + 29 * b) / 256

/-- Modelled from the spec: the floating-point form of the `Brightness`
weighted combination (Rec. 709 luma weights). -/
def greyQ (r g b : ℚ) : ℚ := (2126 * r + 7152 * g + 722 * b) / 10000

/-- Modelled from the spec: `FreeImage_FindMinMaxValue` (declared outside
`src/`) performs the "prior full-bitmap scan" of §4.4 discovering the
componentwise channel bounds; composed with `StripAlpha`/`PixelMin`/
`PixelMax` in `FindHistogramBounds`, the result is the least and the
greatest channel value over the whole bitmap, failing when there are no
pixels to scan. -/
def minmaxQ (xs : List ℚ) : Option (ℚ × ℚ) :=
  match xs with
  | [] => none
  | x :: t => some (t.foldl (fun ac y => (min ac.1 y, max ac.2 y)) (x, x))

/-! ## The histogram engine -/

/-- A value written through the `void* outMinVal / outMaxVal` pointers:
an integer bound (`SetIntMinMax`) or a discovered floating bound
(`FindHistogramBounds`). -/
inductive OutVal where
  | i (z : Int)
  | q (x : ℚ)
deriving DecidableEq

/-- Result of `FreeImage_MakeHistogram`: the returned `FIBOOL` and the
final contents of the four caller buffers and the two out cells
(`none` = the caller passed a null pointer). -/
structure HistResult where
  ok : Bool
  hR : Option (Nat → Nat)
  hG : Option (Nat → Nat)
  hB : Option (Nat → Nat)
  hL : Option (Nat → Nat)
  outMin : Option OutVal
  outMax : Option OutVal

/-- Embedding of `ClearHistogram` on an optional buffer (null is skipped). -/
def clearedOpt (h : Option (Nat → Nat)) (stride bins : Nat) : Option (Nat → Nat) :=
  h.map fun m => ClearHistogram m stride bins

/-- A builder traversal on an optional buffer: `InvokeWithBuilders` drops
null buffers (`Discardable`), so a null buffer is left untouched. -/
def runOpt (h : Option (Nat → Nat)) (stride : Nat) (idx : α → Nat) (ps : List α) :
    Option (Nat → Nat) :=
  h.map fun m => runHist m stride idx ps

/-- Embedding of `HistogramBuilder::SetZero` on an optional buffer: write `v` into
slot 0 (the degenerate-range fast path). -/
def setZeroOpt (h : Option (Nat → Nat)) (v : Nat) : Option (Nat → Nat) :=
  h.map fun m => updateSlot m 0 v

/-- Write-through of an out pointer: `none` models a null pointer. -/
def outIf (want : Bool) (v : OutVal) : Option OutVal :=
  if want then some v else none

/-- The body of `FreeImage_MakeHistogram` after its argument guards: the
up-front `ClearHistogram` of every supplied buffer followed by the
dispatch switch on the image type.

`cabs` is the external complex-magnitude routine (`std::abs` over
`std::complex`, from the C++ standard library) used by `SelectAbs`;
`wantMin`/`wantMax` model whether `outMinVal`/`outMaxVal` are non-null.
Buffers are assumed pairwise non-aliasing, so the single traversal that
feeds all active builders is embedded as one traversal per active
buffer. -/
def MakeHistogramCore (cabs : ℚ → ℚ → ℚ) (dib : Bitmap) (bins : Nat)
    (wantMin wantMax : Bool)
    (hR : Option (Nat → Nat)) (sR : Nat) (hG : Option (Nat → Nat)) (sG : Nat)
    (hB : Option (Nat → Nat)) (sB : Nat) (hL : Option (Nat → Nat)) (sL : Nat) :
    HistResult :=
    let cR := clearedOpt hR sR bins
    let cG := clearedOpt hG sG bins
    let cB := clearedOpt hB sB bins
    let cL := clearedOpt hL sL bins
    match dib.data with
    | .u8 ps =>
        ⟨true, runOpt cR sR (fun v => binIdxU 8 bins v) ps, cG, cB, cL,
          outIf wantMin (.i 0), outIf wantMax (.i 255)⟩
    | .pal8 _ _ =>
        ⟨false, cR, cG, cB, cL, none, none⟩
    | .rgb24 ps =>
        ⟨true, runOpt cR sR (fun p => binIdxU 8 bins p.red) ps,
          runOpt cG sG (fun p => binIdxU 8 bins p.green) ps,
          runOpt cB sB (fun p => binIdxU 8 bins p.blue) ps,
          runOpt cL sL (fun p => binIdxU 8 bins (greyU p.red p.green p.blue)) ps,
          outIf wantMin (.i 0), outIf wantMax (.i 255)⟩
    | .rgba32 ps =>
        ⟨true, runOpt cR sR (fun p => binIdxU 8 bins p.red) ps,
          runOpt cG sG (fun p => binIdxU 8 bins p.green) ps,
          runOpt cB sB (fun p => binIdxU 8 bins p.blue) ps,
          runOpt cL sL (fun p => binIdxU 8 bins (greyU p.red p.green p.blue)) ps,
          outIf wantMin (.i 0), outIf wantMax (.i 255)⟩
    | .bitmapOther =>
        ⟨false, cR, cG, cB, cL, none, none⟩
    | .realF ps =>
        match minmaxQ ps with
        | none => ⟨false, cR, cG, cB, cL, none, none⟩
        | some (lo, hi) =>
            let oMin := outIf wantMin (.q lo)
            let oMax := outIf wantMax (.q hi)
            if hi < lo ∨ bins < 1 then ⟨false, cR, cG, cB, cL, oMin, oMax⟩
            else if lo = hi then
              ⟨true, setZeroOpt cR (dib.width * dib.height), cG, cB, cL, oMin, oMax⟩
            else
              ⟨true, runOpt cR sR (fun v => binIdxF bins lo hi v) ps, cG, cB, cL,
                oMin, oMax⟩
    | .rgbF ps =>
        match minmaxQ (ps.flatMap fun p => [p.red, p.green, p.blue]) with
        | none => ⟨false, cR, cG, cB, cL, none, none⟩
        | some (lo, hi) =>
            let oMin := outIf wantMin (.q lo)
            let oMax := outIf wantMax (.q hi)
            if hi < lo ∨ bins < 1 then ⟨false, cR, cG, cB, cL, oMin, oMax⟩
            else if lo = hi then
              ⟨true, setZeroOpt cR (dib.width * dib.height),
                setZeroOpt cG (dib.width * dib.height),
                setZeroOpt cB (dib.width * dib.height),
                setZeroOpt cL (dib.width * dib.height), oMin, oMax⟩
            else
              ⟨true, runOpt cR sR (fun p => binIdxF bins lo hi p.red) ps,
                runOpt cG sG (fun p => binIdxF bins lo hi p.green) ps,
                runOpt cB sB (fun p => binIdxF bins lo hi p.blue) ps,
                runOpt cL sL (fun p => binIdxF bins lo hi (greyQ p.red p.green p.blue)) ps,
                oMin, oMax⟩
    | .cplx ps =>
        match minmaxQ (ps.flatMap fun p => [p.r, p.i]) with
        | none => ⟨false, cR, cG, cB, cL, none, none⟩
        | some (lo, hi) =>
            let oMin := outIf wantMin (.q lo)
            let oMax := outIf wantMax (.q hi)
            if hi < lo ∨ bins < 1 then ⟨false, cR, cG, cB, cL, oMin, oMax⟩
            else if lo = hi then
              ⟨true, setZeroOpt cR (dib.width * dib.height),
                setZeroOpt cG (dib.width * dib.height),
                setZeroOpt cB (dib.width * dib.height), cL, oMin, oMax⟩
            else
              ⟨true, runOpt cR sR (fun p => binIdxF bins lo hi p.r) ps,
                runOpt cG sG (fun p => binIdxF bins lo hi p.i) ps,
                runOpt cB sB (fun p => binIdxF bins lo hi (cabs p.r p.i)) ps,
                cL, oMin, oMax⟩
    | .rgb16 ps =>
        ⟨true, runOpt cR sR (fun p => binIdxU 16 bins p.red) ps,
          runOpt cG sG (fun p => binIdxU 16 bins p.green) ps,
          runOpt cB sB (fun p => binIdxU 16 bins p.blue) ps,
          runOpt cL sL (fun p => binIdxU 16 bins (greyU p.red p.green p.blue)) ps,
          outIf wantMin (.i 0), outIf wantMax (.i 65535)⟩
    | .rgb32w ps =>
        ⟨true, runOpt cR sR (fun p => binIdxU 32 bins p.red) ps,
          runOpt cG sG (fun p => binIdxU 32 bins p.green) ps,
          runOpt cB sB (fun p => binIdxU 32 bins p.blue) ps,
          runOpt cL sL (fun p => binIdxU 32 bins (greyU p.red p.green p.blue)) ps,
          outIf wantMin (.i 0), outIf wantMax (.i 4294967295)⟩
    | .u16 ps =>
        ⟨true, runOpt cR sR (fun v => binIdxU 16 bins v) ps, cG, cB, cL,
          outIf wantMin (.i 0), outIf wantMax (.i 65535)⟩
    | .u32 ps =>
        ⟨true, runOpt cR sR (fun v => binIdxU 32 bins v) ps, cG, cB, cL,
          outIf wantMin (.i 0), outIf wantMax (.i 4294967295)⟩
    | .i16 ps =>
        ⟨true, runOpt cR sR (fun v => binIdxS 16 bins v) ps, cG, cB, cL,
          outIf wantMin (.i (-32768)), outIf wantMax (.i 32767)⟩
    | .i32 ps =>
        ⟨true, runOpt cR sR (fun v => binIdxS 32 bins v) ps, cG, cB, cL,
          outIf wantMin (.i (-2147483648)), outIf wantMax (.i 2147483647)⟩
    | .other =>
        ⟨false, cR, cG, cB, cL, none, none⟩

/-- Shallow embedding of `FreeImage_MakeHistogram`: the three argument
guards (pixel payload present and `binsNumber ≥ 1`; every supplied buffer
has a positive stride; trivial success when no buffer was supplied at
all), then `MakeHistogramCore`. -/
def FreeImage_MakeHistogram (cabs : ℚ → ℚ → ℚ) (dib : Bitmap) (bins : Nat)
    (wantMin wantMax : Bool)
    (hR : Option (Nat → Nat)) (sR : Nat) (hG : Option (Nat → Nat)) (sG : Nat)
    (hB : Option (Nat → Nat)) (sB : Nat) (hL : Option (Nat → Nat)) (sL : Nat) :
    HistResult :=
  if dib.hasPixels = false ∨ bins < 1 then
    ⟨false, hR, hG, hB, hL, none, none⟩
  else if (hR.isSome ∧ sR = 0) ∨ (hG.isSome ∧ sG = 0) ∨
      (hB.isSome ∧ sB = 0) ∨ (hL.isSome ∧ sL = 0) then
    ⟨false, hR, hG, hB, hL, none, none⟩
  else if hR.isNone ∧ hG.isNone ∧ hB.isNone ∧ hL.isNone then
    ⟨true, hR, hG, hB, hL, none, none⟩
  else
    MakeHistogramCore cabs dib bins wantMin wantMax hR sR hG sG hB sB hL sL

/-- Whether the dispatch arm for a pixel encoding drives the first
(red / identity) buffer — read off the builders each arm passes to
`InvokeWithBuilders`.  Every recognized encoding drives it. -/
def usesR : BitmapData → Bool
  | .pal8 _ _ => false
  | .bitmapOther => false
  | .other => false
  | _ => true

/-- Whether the dispatch arm drives the second (green / imaginary)
buffer: the multi-channel arms do, the single-channel arms do not. -/
def usesG : BitmapData → Bool
  | .rgb24 _ => true
  | .rgba32 _ => true
  | .rgbF _ => true
  | .cplx _ => true
  | .rgb16 _ => true
  | .rgb32w _ => true
  | _ => false

/-- Whether the dispatch arm drives the third (blue / magnitude) buffer:
same arms as `usesG`. -/
def usesB : BitmapData → Bool
  | .rgb24 _ => true
  | .rgba32 _ => true
  | .rgbF _ => true
  | .cplx _ => true
  | .rgb16 _ => true
  | .rgb32w _ => true
  | _ => false

/-- Whether the dispatch arm drives the fourth (brightness) buffer: only
the RGB-family arms pass the `SelectRgbBrightness` builder (the complex
arm passes just real/imaginary/magnitude). -/
def usesL : BitmapData → Bool
  | .rgb24 _ => true
  | .rgba32 _ => true
  | .rgbF _ => true
  | .rgb16 _ => true
  | .rgb32w _ => true
  | _ => false

/-- The number of stored pixels of a payload. -/
def pixelCount : BitmapData → Nat
  | .u8 ps => ps.length
  | .pal8 _ ps => ps.length
  | .rgb24 ps => ps.length
  | .rgba32 ps => ps.length
  | .bitmapOther => 0
  | .realF ps => ps.length
  | .rgbF ps => ps.length
  | .cplx ps => ps.length
  | .rgb16 ps => ps.length
  | .rgb32w ps => ps.length
  | .u16 ps => ps.length
  | .u32 ps => ps.length
  | .i16 ps => ps.length
  | .i32 ps => ps.length
  | .other => 0

/-! ## The curve engine -/

/-- The `FREE_IMAGE_COLOR_CHANNEL` argument of `FreeImage_AdjustCurve`.
`black` also stands for every other enum value: all of them reach the
24/32-bit switch's `default: break`. -/
inductive FICC where
  | rgb
  | red
  | green
  | blue
  | alpha
  | black
deriving DecidableEq

/-- Shallow embedding of `FreeImage_AdjustCurve`.  `lut = none` models a
null `LUT` pointer.  For palette-classified 8-bit bitmaps the table is
applied to the palette (all used entries; `FreeImage_GetColorsUsed` is
modelled as the whole stored palette), never to the pixel indices.
Non-`FIT_BITMAP` data and `FIT_BITMAP` data whose bpp is not 8/24/32
(`bitmapOther`) are rejected. -/
def FreeImage_AdjustCurve (dib : Bitmap) (lut : Option (Nat → Nat)) (channel : FICC) :
    Bool × Bitmap :=
  match lut with
  | none => (false, dib)
  | some f =>
    if dib.hasPixels = false then (false, dib)
    else
      match dib.data with
      | .u8 ps => (true, { dib with data := .u8 (ps.map f) })
      | .pal8 pal ps =>
          let pal2 := pal.map fun c => PixelRGBA.mk (f c.red) (f c.green) (f c.blue) c.alpha
          (true, { dib with data := BitmapData.pal8 pal2 ps })
      | .rgb24 ps =>
          match channel with
          | .rgb =>
              (true, { dib with data := .rgb24 (ps.map fun p => ⟨f p.red, f p.green, f p.blue⟩) })
          | .red =>
              (true, { dib with data := .rgb24 (ps.map fun p => ⟨f p.red, p.green, p.blue⟩) })
          | .green =>
              (true, { dib with data := .rgb24 (ps.map fun p => ⟨p.red, f p.green, p.blue⟩) })
          | .blue =>
              (true, { dib with data := .rgb24 (ps.map fun p => ⟨p.red, p.green, f p.blue⟩) })
          | .alpha => (true, dib)
          | .black => (true, dib)
      | .rgba32 ps =>
          match channel with
          | .rgb =>
              let q := ps.map fun p => PixelRGBA.mk (f p.red) (f p.green) (f p.blue) p.alpha
              (true, { dib with data := BitmapData.rgba32 q })
          | .red =>
              let q := ps.map fun p => PixelRGBA.mk (f p.red) p.green p.blue p.alpha
              (true, { dib with data := BitmapData.rgba32 q })
          | .green =>
              let q := ps.map fun p => PixelRGBA.mk p.red (f p.green) p.blue p.alpha
              (true, { dib with data := BitmapData.rgba32 q })
          | .blue =>
              let q := ps.map fun p => PixelRGBA.mk p.red p.green (f p.blue) p.alpha
              (true, { dib with data := BitmapData.rgba32 q })
          | .alpha =>
              let q := ps.map fun p => PixelRGBA.mk p.red p.green p.blue (f p.alpha)
              (true, { dib with data := BitmapData.rgba32 q })
          | .black => (true, dib)
      | _ => (false, dib)

/-- The clamp `MAX(0.0, MIN(value, 255.0))`: the clamp applied after each lookup
table adjustment stage. -/
def clamp255 (x : ℚ) : ℚ := max 0 (min x 255)

/-- Rounding `(uint8_t)floor(x + 0.5)`: round half up into a byte.  The clamped
doubles lie in `[0, 255]`, so the byte cast never wraps and the result is
just the floor, taken at 0 for negative input. -/
def roundHalfUp (x : ℚ) : Nat := (Int.floor (x + 1 / 2)).toNat

/-- The contrast stage of the lookup-table pipeline: applied only when
`contrast != 0.0`, as `value = 128 + (dblLUT[i] - 128) * (100+contrast)/100`
clamped to [0,255]. -/
def contrastStage (contrast : ℚ) (d : Nat → ℚ) : Nat → ℚ :=
  if contrast ≠ 0 then
    fun j => clamp255 (128 + (d j - 128) * ((100 + contrast) / 100))
  else d

/-- The brightness stage: applied only when `brightness != 0.0`, as
`value = dblLUT[i] * (100+brightness)/100` clamped to [0,255]. -/
def brightnessStage (brightness : ℚ) (d : Nat → ℚ) : Nat → ℚ :=
  if brightness ≠ 0 then
    fun j => clamp255 (d j * ((100 + brightness) / 100))
  else d

/-- The gamma stage: applied only when `gamma > 0` and `gamma != 1.0`, as
`value = pow(dblLUT[i], 1/gamma) * 255 * pow(255, -(1/gamma))` clamped to
[0,255]; `powf` is the external libm `pow`. -/
def gammaStage (powf : ℚ → ℚ → ℚ) (gamma : ℚ) (d : Nat → ℚ) : Nat → ℚ :=
  if gamma > 0 ∧ gamma ≠ 1 then
    fun j => clamp255 (powf (d j) (1 / gamma) * (255 * powf 255 (-(1 / gamma))))
  else d

/-- The number of adjustments the pipeline applies (the `result` counter
before the inversion stage). -/
def stageCount (brightness contrast gamma : ℚ) : Nat :=
  (if contrast ≠ 0 then 1 else 0) + (if brightness ≠ 0 then 1 else 0) +
    (if gamma > 0 ∧ gamma ≠ 1 then 1 else 0)

/-- Shallow embedding of `FreeImage_GetAdjustColorsLookupTable`.  `powf`
is the external libm `pow`; the doubles are exact rationals.  Returns the
lookup table (as a function on table indices) and the returned adjustment
count.  The neutral-parameter fast path returns the blind table without
touching the pipeline; otherwise the double table goes through contrast,
brightness and gamma in that order, and is rounded half-up into bytes,
with the optional inversion computed on the rounded byte
(`255 - (uint8_t)floor(dblLUT[i] + 0.5)`). -/
def FreeImage_GetAdjustColorsLookupTable (powf : ℚ → ℚ → ℚ)
    (brightness contrast gamma : ℚ) (invert : Bool) : (Nat → Nat) × Nat :=
  if brightness = 0 ∧ contrast = 0 ∧ gamma = 1 ∧ invert = false then
    (fun j => j, 0)
  else
    let d3 := gammaStage powf gamma
      (brightnessStage brightness (contrastStage contrast (fun j => (j : ℚ))))
    if invert = false then
      (fun j => roundHalfUp (d3 j), stageCount brightness contrast gamma)
    else
      (fun j => 255 - roundHalfUp (d3 j), stageCount brightness contrast gamma + 1)

/-- The lookup-table construction exactly as the claim words it: the same
contrast → brightness → gamma chain of clamped floating-point transforms,
with the final inversion applied as one more transform on the doubles and
the round-half-up into bytes performed last. -/
def specAdjustColorsLUT (powf : ℚ → ℚ → ℚ)
    (brightness contrast gamma : ℚ) (invert : Bool) : (Nat → Nat) × Nat :=
  let d3 := gammaStage powf gamma
    (brightnessStage brightness (contrastStage contrast (fun j => (j : ℚ))))
  let d4 := if invert then fun j => 255 - d3 j else d3
  (fun j => roundHalfUp (d4 j),
    stageCount brightness contrast gamma + (if invert then 1 else 0))

/-- The claimed construction amended in one point: the final inversion
operates on the already-rounded byte (`255 - floor(x + 0.5)`), which is
what the code computes. -/
def specAdjustColorsLUTAmended (powf : ℚ → ℚ → ℚ)
    (brightness contrast gamma : ℚ) (invert : Bool) : (Nat → Nat) × Nat :=
  let d3 := gammaStage powf gamma
    (brightnessStage brightness (contrastStage contrast (fun j => (j : ℚ))))
  if invert then
    (fun j => 255 - roundHalfUp (d3 j), stageCount brightness contrast gamma + 1)
  else
    (fun j => roundHalfUp (d3 j), stageCount brightness contrast gamma)

/-! ## The plugin registry (`Source/FreeImage/Plugin.cpp`) -/

/-- A plugin capability table (`Plugin`).  Hooks are abstracted to what
the registry itself observes: the string procs return fixed strings
(`none` = null function pointer); `validate_proc` consumes the stream
position and yields a verdict plus the position it leaves the stream at;
`open_proc`/`close_proc` presence drives the session discipline; a present
`save_proc` is abstracted by the `FIBOOL` it returns. -/
structure Plugin where
  format_proc : Option String
  mime_proc : Option String
  extension_proc : Option String
  validate_proc : Option (Int → Bool × Int)
  open_proc : Bool
  close_proc : Bool
  load_proc : Bool
  save_proc : Option Bool

/-- A registered plugin descriptor (`PluginNode`). -/
structure PluginNode where
  m_id : Nat
  m_format : Option String
  m_description : Option String
  m_extension : Option String
  m_regexpr : Option String
  m_plugin : Plugin
  m_enabled : Bool

/-- The registry: `m_plugin_map` is a `std::map` keyed by the dense ids
0, 1, 2, …, so it is embedded as a list in id order (the list index is
the id). -/
def PluginList := List PluginNode

/-- The equality verdict of `FreeImage_stricmp`: case-insensitive string
comparison. -/
def stricmpEq (a b : String) : Bool := a.toLower == b.toLower

/-- The effective format name: the registration override if present,
else the capability table's `format_proc` (registration guarantees one of
the two exists; a missing one is read as the empty string). -/
def effFormat (n : PluginNode) : String :=
  n.m_format.getD (n.m_plugin.format_proc.getD "")

/-- The effective MIME type: `mime_proc` if present, else `""` (exactly
`FindNodeFromMime`'s fallback). -/
def effMime (n : PluginNode) : String := n.m_plugin.mime_proc.getD ""

/-- The effective extension list (`FreeImage_GetFIFExtensionList`):
override, else `extension_proc`, read as `""` when absent. -/
def effExtensions (n : PluginNode) : String :=
  n.m_extension.getD (n.m_plugin.extension_proc.getD "")

/-- Embedding of `PluginList::FindNodeFromFormat`: first node, in id order, that is
enabled and whose effective format name matches case-insensitively. -/
def FindNodeFromFormat (r : List PluginNode) (format : String) : Option PluginNode :=
  r.find? fun n => n.m_enabled && stricmpEq (effFormat n) format

/-- Embedding of `PluginList::FindNodeFromMime`: first enabled node whose effective
MIME matches exactly (case-sensitive `strcmp`). -/
def FindNodeFromMime (r : List PluginNode) (mime : String) : Option PluginNode :=
  r.find? fun n => n.m_enabled && (effMime n == mime)

/-- Embedding of `PluginList::FindNodeFromFIF`: direct id lookup, independent of the
enabled flag. -/
def FindNodeFromFIF (r : List PluginNode) (fif : Int) : Option PluginNode :=
  if fif < 0 then none else r[fif.toNat]?

/-- Embedding of `FI_InitProc`: the one-time setup entry point, given the assigned id;
the outer `Option` models a null function pointer and an inner `none`
models a thrown fault (swallowed by `AddNode`'s `catch (...)`). -/
def InitProc := Nat → Option Plugin

/-- Embedding of `PluginList::AddNode`: assigns the next sequential id
(`m_plugin_map.size()`), runs the setup entry point, determines the format
name (override first, else the table's `format_proc`), and only then
stores the node, enabled.  Returns the updated registry and the returned
`FREE_IMAGE_FORMAT` (`-1` = `FIF_UNKNOWN`). -/
def AddNode (r : List PluginNode) (init : Option InitProc)
    (format descr ext regexpr : Option String) : List PluginNode × Int :=
  match init with
  | none => (r, -1)
  | some proc =>
    match proc r.length with
    | none => (r, -1)
    | some plugin =>
      match format.or plugin.format_proc with
      | none => (r, -1)
      | some _ =>
          (r ++ [⟨r.length, format, descr, ext, regexpr, plugin, true⟩], (r.length : Int))

/-- Embedding of `FreeImage_SetPluginEnabled`: resolves the node by id (enabled or
not), flips its flag in place, and returns the previous state
(`-1` = invalid id). -/
def FreeImage_SetPluginEnabled (r : List PluginNode) (fif : Int) (enable : Bool) :
    List PluginNode × Int :=
  match FindNodeFromFIF r fif with
  | none => (r, -1)
  | some node =>
      (r.set fif.toNat { node with m_enabled := enable },
        if node.m_enabled then 1 else 0)

/-- The extension of a filename: the substring after the last `.`
(`strrchr`), or the whole name when there is no dot. -/
def filenameExt (filename : String) : String :=
  (filename.splitOn ".").getLastD filename

/-- Embedding of `strtok(copy, ",")` over an extension list: the non-empty
comma-separated tokens. -/
def extTokens (s : String) : List String :=
  (s.splitOn ",").filter (fun t => ¬t = "")

/-- Embedding of `FreeImage_GetFIFFromFilename`: for each id in order, skipping
disabled nodes, match the extracted extension case-insensitively first
against the effective format name and then against each token of the
effective extension list; first hit wins, else `FIF_UNKNOWN` (-1). -/
def FreeImage_GetFIFFromFilename (r : List PluginNode) (filename : String) : Int :=
  match r.findIdx? (fun n => n.m_enabled &&
      (stricmpEq (effFormat n) (filenameExt filename) ||
        (extTokens (effExtensions n)).any fun t => stricmpEq t (filenameExt filename))) with
  | some k => (k : Int)
  | none => -1

/-- Embedding of `FreeImage_GetFIFFromFormat`: id of the format-name lookup. -/
def FreeImage_GetFIFFromFormat (r : List PluginNode) (format : String) : Int :=
  match FindNodeFromFormat r format with
  | some n => (n.m_id : Int)
  | none => -1

/-- Embedding of `FreeImage_GetFIFFromMime`: id of the MIME lookup. -/
def FreeImage_GetFIFFromMime (r : List PluginNode) (mime : String) : Int :=
  match FindNodeFromMime r mime with
  | some n => (n.m_id : Int)
  | none => -1

/-- Embedding of `FreeImage_ValidateFIF`: remembers the stream position (`tell_proc`),
invokes the enabled plugin's validate hook — which may move the position
arbitrarily far — and then seeks back to the remembered position
(`SEEK_SET`).  The registry is `none` when the plugin system is not
initialised; the stream is abstracted to its read position. -/
def FreeImage_ValidateFIF (plugins : Option (List PluginNode)) (fif : Int) (pos : Int) :
    Bool × Int :=
  match plugins with
  | none => (false, pos)
  | some r =>
    match FindNodeFromFIF r fif with
    | none => (false, pos)
    | some node =>
      let tell := pos
      let probe :=
        if node.m_enabled then
          match node.m_plugin.validate_proc with
          | some v => v pos
          | none => (false, pos)
        else (false, pos)
      (probe.1, tell)

/-- One plugin hook invocation, as observed by `FreeImage_SaveToHandle`. -/
inductive HookCall where
  | openHook (fif : Int)
  | saveHook (fif : Int)
  | closeHook (fif : Int)
deriving DecidableEq

/-- Embedding of `FreeImage_SaveToHandle`, instrumented with the ordered list of
plugin hooks it invokes.  The header-only rejection comes first; then the
id range check, the id lookup, and — only when a save hook exists — the
open/save/close session (`FreeImage_Open`/`FreeImage_Close` call the open
and close hooks only when the plugin provides them). -/
def FreeImage_SaveToHandle (r : List PluginNode) (dib : Bitmap) (fif : Int) :
    Bool × List HookCall :=
  if dib.hasPixels = false then (false, [])
  else if 0 ≤ fif ∧ fif < (r.length : Int) then
    match FindNodeFromFIF r fif with
    | some node =>
      match node.m_plugin.save_proc with
      | some result =>
          (result,
            (if node.m_plugin.open_proc then [HookCall.openHook fif] else []) ++
              [HookCall.saveHook fif] ++
              (if node.m_plugin.close_proc then [HookCall.closeHook fif] else []))
      | none => (false, [])
    | none => (false, [])
  else (false, [])


/-- A small concrete capability table used by witness theorems. -/
def demoPlugin (fmt mime ext : String) : Plugin :=
  ⟨some fmt, some mime, some ext, none, false, false, false, none⟩

/-- A small concrete registered descriptor used by witness theorems. -/
def demoNode (id : Nat) (fmt mime ext : String) : PluginNode :=
  ⟨id, none, none, none, none, demoPlugin fmt mime ext, true⟩

/-- A two-entry concrete registry used by witness theorems. -/
def demoRegistry : List PluginNode :=
  [demoNode 0 "BMP" "image/bmp" "bmp", demoNode 1 "PNG" "image/png" "png"]

/-! ## Buffer lemmas -/

theorem clampBin_lt {bins : Nat} (hb : 1 ≤ bins) (j : Nat) : clampBin bins j < bins := by
  unfold clampBin
  omega

theorem binIdxU_lt {bins : Nat} (hb : 1 ≤ bins) (W v : Nat) : binIdxU W bins v < bins := by
  unfold binIdxU
  split <;> exact clampBin_lt hb _

theorem binIdxS_lt {bins : Nat} (hb : 1 ≤ bins) (W : Nat) (v : Int) :
    binIdxS W bins v < bins := clampBin_lt hb _

theorem binIdxF_lt {bins : Nat} (hb : 1 ≤ bins) (lo hi v : ℚ) :
    binIdxF bins lo hi v < bins := clampBin_lt hb _

theorem updateSlot_same (m : Nat → Nat) (j v : Nat) : updateSlot m j v j = v := by
  simp [updateSlot]

theorem updateSlot_other (m : Nat → Nat) {j k : Nat} (v : Nat) (h : k ≠ j) :
    updateSlot m j v k = m k := by
  simp [updateSlot, h]

/-- After `ClearHistogram`, every strided slot `i * stride` with `i < bins`
holds zero. -/
theorem ClearHistogram_strided_eq_zero (m : Nat → Nat) {stride bins : Nat}
    (hs : 1 ≤ stride) {i : Nat} (hi : i < bins) :
    ClearHistogram m stride bins (i * stride) = 0 := by
  unfold ClearHistogram
  induction bins generalizing m with
  | zero => omega
  | succ b ih =>
    rw [List.range_succ, List.foldl_append]
    simp only [List.foldl_cons, List.foldl_nil]
    rcases Nat.lt_or_ge i b with hb | hb
    · have hne : i * stride ≠ b * stride := by
        intro hEq
        have := Nat.eq_of_mul_eq_mul_right hs hEq
        omega
      rw [updateSlot_other _ 0 hne]
      exact ih _ hb
    · have : i = b := by omega
      subst this
      simp [updateSlot]

/-- Embedding of `ClearHistogram` does not touch slots that are not of the form
`i * stride`, `i < bins`. -/
theorem ClearHistogram_untouched (m : Nat → Nat) {stride bins k : Nat}
    (hk : ∀ i < bins, k ≠ i * stride) :
    ClearHistogram m stride bins k = m k := by
  unfold ClearHistogram
  induction bins generalizing m with
  | zero => rfl
  | succ b ih =>
    rw [List.range_succ, List.foldl_append]
    have hb : k ≠ b * stride := hk b (Nat.lt_succ_self b)
    simp only [List.foldl_cons, List.foldl_nil]
    rw [updateSlot_other _ 0 hb]
    exact ih _ (fun i hi => hk i (Nat.lt_succ_of_lt hi))

/-- The strided sum of a cleared buffer is zero. -/
theorem histSum_clear (m : Nat → Nat) {stride : Nat} (bins : Nat) (hs : 1 ≤ stride) :
    histSum (ClearHistogram m stride bins) stride bins = 0 := by
  unfold histSum
  refine Finset.sum_eq_zero fun i hi => ?_
  exact ClearHistogram_strided_eq_zero m hs (Finset.mem_range.mp hi)

/-- After a traversal, the strided slot of bin `j` has grown by exactly
the number of pixels whose bin index is `j`. -/
theorem runHist_slot (stride : Nat) (idx : α → Nat) (ps : List α)
    (hs : 1 ≤ stride) (m : Nat → Nat) (j : Nat) :
    runHist m stride idx ps (j * stride) =
      m (j * stride) + (ps.filter (fun p => idx p = j)).length := by
  induction ps generalizing m with
  | nil => simp [runHist]
  | cons p t ih =>
    have step : runHist m stride idx (p :: t) =
        runHist (bumpSlot m (idx p * stride)) stride idx t := rfl
    rw [step, ih]
    by_cases hpj : idx p = j
    · subst hpj
      simp [bumpSlot, List.filter_cons]
      omega
    · have hne : j * stride ≠ idx p * stride := by
        intro hEq
        exact hpj (Nat.eq_of_mul_eq_mul_right hs hEq).symm
      simp [bumpSlot, List.filter_cons, hne, hpj]

/-- A traversal leaves non-strided slots untouched. -/
theorem runHist_untouched (stride : Nat) (idx : α → Nat) (ps : List α)
    (m : Nat → Nat) {k : Nat} (hk : ∀ p ∈ ps, k ≠ idx p * stride) :
    runHist m stride idx ps k = m k := by
  induction ps generalizing m with
  | nil => rfl
  | cons p t ih =>
    have step : runHist m stride idx (p :: t) =
        runHist (bumpSlot m (idx p * stride)) stride idx t := rfl
    rw [step, ih _ (fun q hq => hk q (List.mem_cons_of_mem p hq))]
    exact if_neg (hk p (List.mem_cons_self p t))

/-- Counting pixels bin by bin recovers the pixel count when every bin
index lies below `bins`. -/
theorem sum_filter_binned (idx : α → Nat) (ps : List α) (bins : Nat)
    (hb : ∀ p ∈ ps, idx p < bins) :
    (∑ j ∈ Finset.range bins, (ps.filter (fun p => idx p = j)).length) = ps.length := by
  induction ps with
  | nil => simp
  | cons p t ih =>
    have hp : idx p < bins := hb p (List.mem_cons_self p t)
    have ht : ∀ q ∈ t, idx q < bins := fun q hq => hb q (List.mem_cons_of_mem p hq)
    have : (∑ j ∈ Finset.range bins, ((p :: t).filter (fun q => idx q = j)).length) =
        (∑ j ∈ Finset.range bins, ((if idx p = j then 1 else 0) +
          (t.filter (fun q => idx q = j)).length)) := by
      refine Finset.sum_congr rfl fun j _ => ?_
      by_cases hj : idx p = j <;> simp [List.filter_cons, hj, Nat.add_comm]
    rw [this, Finset.sum_add_distrib, ih ht]
    have : (∑ j ∈ Finset.range bins, if idx p = j then 1 else 0) = 1 := by
      rw [Finset.sum_ite_eq (Finset.range bins) (idx p) (fun _ => 1)]
      simp [Finset.mem_range.mpr hp]
    rw [this]
    simp [Nat.add_comm]

/-- Mass conservation of one traversal: the strided sum grows by exactly
the number of pixels traversed. -/
theorem histSum_runHist (m : Nat → Nat) {stride : Nat} (bins : Nat)
    (idx : α → Nat) (ps : List α) (hs : 1 ≤ stride)
    (hb : ∀ p ∈ ps, idx p < bins) :
    histSum (runHist m stride idx ps) stride bins =
      histSum m stride bins + ps.length := by
  unfold histSum
  have : (∑ i ∈ Finset.range bins, runHist m stride idx ps (i * stride)) =
      ∑ i ∈ Finset.range bins,
        (m (i * stride) + (ps.filter (fun p => idx p = i)).length) := by
    refine Finset.sum_congr rfl fun i _ => ?_
    exact runHist_slot stride idx ps hs m i
  rw [this, Finset.sum_add_distrib, sum_filter_binned idx ps bins hb]

/-- Clear-then-traverse: the strided sum is exactly the pixel count. -/
theorem histSum_run_clear (m : Nat → Nat) {stride : Nat} (bins : Nat)
    (idx : α → Nat) (ps : List α) (hs : 1 ≤ stride)
    (hb : ∀ p ∈ ps, idx p < bins) :
    histSum (runHist (ClearHistogram m stride bins) stride idx ps) stride bins =
      ps.length := by
  rw [histSum_runHist _ bins idx ps hs hb, histSum_clear m bins hs, Nat.zero_add]

/-! ## Engine-level helper lemmas -/

theorem clearedOpt_zero {h : Option (Nat → Nat)} {s bins : Nat} (hs : 1 ≤ s)
    {m : Nat → Nat} (hm : clearedOpt h s bins = some m) :
    ∀ i < bins, m (i * s) = 0 := by
  rcases h with _ | m0
  · simp [clearedOpt] at hm
  · simp only [clearedOpt, Option.map_some] at hm
    obtain rfl : ClearHistogram m0 s bins = m := Option.some.inj hm
    intro i hi
    exact ClearHistogram_strided_eq_zero m0 hs hi

theorem runClearOpt_mass {α : Type} {h : Option (Nat → Nat)} {s bins : Nat}
    {idx : α → Nat} (ps : List α) (hs : 1 ≤ s) (hbnd : ∀ p ∈ ps, idx p < bins)
    {m : Nat → Nat} (hm : runOpt (clearedOpt h s bins) s idx ps = some m) :
    histSum m s bins = ps.length := by
  rcases h with _ | m0
  · simp [clearedOpt, runOpt] at hm
  · simp only [clearedOpt, runOpt, Option.map_some] at hm
    obtain rfl : runHist (ClearHistogram m0 s bins) s idx ps = m := Option.some.inj hm
    exact histSum_run_clear m0 bins idx ps hs hbnd

theorem setZeroClearOpt_facts {h : Option (Nat → Nat)} {s bins v : Nat}
    (hs : 1 ≤ s) (hb : 1 ≤ bins)
    {m : Nat → Nat} (hm : setZeroOpt (clearedOpt h s bins) v = some m) :
    histSum m s bins = v ∧ m 0 = v ∧ (∀ i, 0 < i → i < bins → m (i * s) = 0) := by
  rcases h with _ | m0
  · simp [clearedOpt, setZeroOpt] at hm
  · simp only [clearedOpt, setZeroOpt, Option.map_some] at hm
    obtain rfl : updateSlot (ClearHistogram m0 s bins) 0 v = m := Option.some.inj hm
    have hzero : ∀ i, 0 < i → i < bins →
        updateSlot (ClearHistogram m0 s bins) 0 v (i * s) = 0 := by
      intro i hi hib
      have hne : i * s ≠ 0 := by positivity
      rw [updateSlot_other _ v hne]
      exact ClearHistogram_strided_eq_zero m0 hs hib
    refine ⟨?_, updateSlot_same _ 0 v, hzero⟩
    unfold histSum
    rw [Finset.sum_eq_single_of_mem 0 (Finset.mem_range.mpr hb)]
    · simpa using updateSlot_same (ClearHistogram m0 s bins) 0 v
    · intro i hi hne
      exact hzero i (Nat.pos_of_ne_zero hne) (Finset.mem_range.mp hi)

theorem makeHistogram_eq_core (cabs : ℚ → ℚ → ℚ) (dib : Bitmap) (bins : Nat)
    (wantMin wantMax : Bool)
    (hR : Option (Nat → Nat)) (sR : Nat) (hG : Option (Nat → Nat)) (sG : Nat)
    (hB : Option (Nat → Nat)) (sB : Nat) (hL : Option (Nat → Nat)) (sL : Nat)
    (h1 : dib.hasPixels = true) (h2 : 1 ≤ bins)
    (h3 : ¬((hR.isSome ∧ sR = 0) ∨ (hG.isSome ∧ sG = 0) ∨
      (hB.isSome ∧ sB = 0) ∨ (hL.isSome ∧ sL = 0)))
    (h4 : ¬(hR.isNone ∧ hG.isNone ∧ hB.isNone ∧ hL.isNone)) :
    FreeImage_MakeHistogram cabs dib bins wantMin wantMax hR sR hG sG hB sB hL sL =
      MakeHistogramCore cabs dib bins wantMin wantMax hR sR hG sG hB sB hL sL := by
  unfold FreeImage_MakeHistogram
  rw [if_neg (by simp [h1]; omega), if_neg h3, if_neg h4]

theorem makeHistogram_ok_elim (cabs : ℚ → ℚ → ℚ) (dib : Bitmap) (bins : Nat)
    (wantMin wantMax : Bool)
    (hR : Option (Nat → Nat)) (sR : Nat) (hG : Option (Nat → Nat)) (sG : Nat)
    (hB : Option (Nat → Nat)) (sB : Nat) (hL : Option (Nat → Nat)) (sL : Nat)
    (hok : (FreeImage_MakeHistogram cabs dib bins wantMin wantMax
      hR sR hG sG hB sB hL sL).ok = true) :
    (hR = none ∧ hG = none ∧ hB = none ∧ hL = none ∧
      FreeImage_MakeHistogram cabs dib bins wantMin wantMax hR sR hG sG hB sB hL sL =
        ⟨true, hR, hG, hB, hL, none, none⟩) ∨
    (dib.hasPixels = true ∧ 1 ≤ bins ∧
      (hR.isSome → 1 ≤ sR) ∧ (hG.isSome → 1 ≤ sG) ∧
      (hB.isSome → 1 ≤ sB) ∧ (hL.isSome → 1 ≤ sL) ∧
      FreeImage_MakeHistogram cabs dib bins wantMin wantMax hR sR hG sG hB sB hL sL =
        MakeHistogramCore cabs dib bins wantMin wantMax hR sR hG sG hB sB hL sL) := by
  unfold FreeImage_MakeHistogram at hok
  split_ifs at hok with h1 h2 h3
  · left
    obtain ⟨hr, hg, hb, hl⟩ := h3
    rw [Option.isNone_iff_eq_none] at hr hg hb hl
    refine ⟨hr, hg, hb, hl, ?_⟩
    unfold FreeImage_MakeHistogram
    rw [if_neg h1, if_neg h2, if_pos ⟨by simp [hr], by simp [hg], by simp [hb], by simp [hl]⟩]
  · right
    push_neg at h1 h2
    obtain ⟨hp, hbins⟩ := h1
    have hp' : dib.hasPixels = true := by
      cases hx : dib.hasPixels
      · exact absurd hx hp
      · rfl
    refine ⟨hp', by omega, ?_, ?_, ?_, ?_, ?_⟩
    · intro h
      have := h2.1 h
      omega
    · intro h
      have := h2.2.1 h
      omega
    · intro h
      have := h2.2.2.1 h
      omega
    · intro h
      have := h2.2.2.2 h
      omega
    · unfold FreeImage_MakeHistogram
      rw [if_neg, if_neg, if_neg h3]
      · intro hcon
        rcases hcon with ⟨hs, hz⟩ | ⟨hs, hz⟩ | ⟨hs, hz⟩ | ⟨hs, hz⟩
        · exact absurd hz (h2.1 hs)
        · exact absurd hz (h2.2.1 hs)
        · exact absurd hz (h2.2.2.1 hs)
        · exact absurd hz (h2.2.2.2 hs)
      · intro hcon
        rcases hcon with hcon | hcon
        · rw [hp'] at hcon
          simp at hcon
        · omega

/-! ## C9: probe position restoration -/

/-- C9 — (confirmed).  For every registry state (including an
uninitialised plugin system), every format id and every stream position,
`FreeImage_ValidateFIF` returns the stream at exactly the position it
started from — whether or not the plugin exists, is enabled, has a
validate hook, or moves the read position arbitrarily far. -/
theorem validateFIF_restores_position (plugins : Option (List PluginNode))
    (fif : Int) (pos : Int) :
    (FreeImage_ValidateFIF plugins fif pos).2 = pos := by
  cases plugins with
  | none => rfl
  | some r =>
    cases hn : FindNodeFromFIF r fif with
    | none => simp [FreeImage_ValidateFIF, hn]
    | some node => simp [FreeImage_ValidateFIF, hn]

/-! ## C10: alpha curve on 24-bit bitmaps is a successful no-op -/

/-- C10 — (confirmed).  On a 24-bit bitmap with pixels,
`FreeImage_AdjustCurve` with channel `FICC_ALPHA` reports success while
changing nothing: the 24-bit arm's alpha case is guarded by
`if (32 == bpp)` and otherwise falls through to `return TRUE`. -/
theorem adjustCurve_alpha_24bit_noop (w h : Nat) (ps : List PixelRGB)
    (f : Nat → Nat) :
    FreeImage_AdjustCurve ⟨w, h, true, .rgb24 ps⟩ (some f) FICC.alpha =
      (true, ⟨w, h, true, .rgb24 ps⟩) := rfl

/-! ## C6: header-only bitmaps are rejected before any plugin hook -/

/-- C6 — (confirmed).  Saving a bitmap that carries no pixel payload
fails up front: for every registry, format id and bitmap without pixels,
`FreeImage_SaveToHandle` returns `FALSE` and the invoked-hook trace is
empty — no plugin open/save/close hook runs. -/
theorem saveToHandle_header_only (r : List PluginNode) (dib : Bitmap) (fif : Int)
    (hnp : dib.hasPixels = false) :
    FreeImage_SaveToHandle r dib fif = (false, []) := by
  unfold FreeImage_SaveToHandle
  rw [hnp]
  rfl

/-- Witness for C6 at a concrete header-only bitmap. -/
theorem saveToHandle_header_only_witness :
    (Bitmap.mk 8 8 false BitmapData.other).hasPixels = false ∧
      FreeImage_SaveToHandle [] (Bitmap.mk 8 8 false BitmapData.other) 0 = (false, []) :=
  ⟨rfl, saveToHandle_header_only [] (Bitmap.mk 8 8 false BitmapData.other) 0 rfl⟩

/-! ## C8: registration id assignment and failure characterization -/

/-- C8 — (confirmed).  `PluginList::AddNode` assigns ids densely and
sequentially: a successful registration is stored enabled at the end of
the registry with id equal to the current registry size, so registering
A, B, C into an empty registry yields ids 0, 1, 2, and — the model being
a function of the registry state — replaying the same sequence after a
teardown reproduces the same ids.  Registration returns the
`FIF_UNKNOWN` sentinel and stores nothing exactly when the setup entry
point is absent, when it faults (captured), or when no format name can be
determined from the override or the capability table's format-name
function. -/
theorem addNode_registration (r : List PluginNode) (init : Option InitProc)
    (format descr ext regexpr : Option String) :
    (init = none → AddNode r init format descr ext regexpr = (r, -1)) ∧
    (∀ proc, init = some proc → proc r.length = none →
      AddNode r init format descr ext regexpr = (r, -1)) ∧
    (∀ proc plugin, init = some proc → proc r.length = some plugin →
      format.or plugin.format_proc = none →
      AddNode r init format descr ext regexpr = (r, -1)) ∧
    (∀ proc plugin fmt, init = some proc → proc r.length = some plugin →
      format.or plugin.format_proc = some fmt →
      AddNode r init format descr ext regexpr =
        (r ++ [⟨r.length, format, descr, ext, regexpr, plugin, true⟩],
          (r.length : Int))) := by
  refine ⟨?_, ?_, ?_, ?_⟩
  · rintro rfl
    rfl
  · rintro proc rfl hthrow
    simp only [AddNode]
    rw [hthrow]
  · rintro proc plugin rfl hp hfmt
    simp only [AddNode, hp, hfmt]
  · rintro proc plugin fmt rfl hp hfmt
    simp only [AddNode, hp, hfmt]

/-- Witness for C8: three successive successful registrations starting
from the empty registry get ids 0, 1 and 2. -/
theorem addNode_registration_witness :
    (AddNode [] (some fun _ => some (demoPlugin "BMP" "image/bmp" "bmp"))
        none none none none).2 = 0 ∧
    (AddNode (AddNode [] (some fun _ => some (demoPlugin "BMP" "image/bmp" "bmp"))
          none none none none).1
        (some fun _ => some (demoPlugin "ICO" "image/ico" "ico"))
        none none none none).2 = 1 ∧
    (AddNode (AddNode (AddNode [] (some fun _ => some (demoPlugin "BMP" "image/bmp" "bmp"))
            none none none none).1
          (some fun _ => some (demoPlugin "ICO" "image/ico" "ico"))
          none none none none).1
        (some fun _ => some (demoPlugin "JPEG" "image/jpeg" "jpg"))
        none none none none).2 = 2 := by
  have h1 := (addNode_registration []
    (some fun _ => some (demoPlugin "BMP" "image/bmp" "bmp"))
    none none none none).2.2.2 _ (demoPlugin "BMP" "image/bmp" "bmp") "BMP" rfl rfl rfl
  have h2 := (addNode_registration
    (AddNode [] (some fun _ => some (demoPlugin "BMP" "image/bmp" "bmp"))
      none none none none).1
    (some fun _ => some (demoPlugin "ICO" "image/ico" "ico"))
    none none none none).2.2.2 _ (demoPlugin "ICO" "image/ico" "ico") "ICO" rfl rfl rfl
  have h3 := (addNode_registration
    (AddNode (AddNode [] (some fun _ => some (demoPlugin "BMP" "image/bmp" "bmp"))
        none none none none).1
      (some fun _ => some (demoPlugin "ICO" "image/ico" "ico"))
      none none none none).1
    (some fun _ => some (demoPlugin "JPEG" "image/jpeg" "jpg"))
    none none none none).2.2.2 _ (demoPlugin "JPEG" "image/jpeg" "jpg") "JPEG" rfl rfl rfl
  refine ⟨?_, ?_, ?_⟩
  · rw [h1]
    rfl
  · rw [h2, h1]
    rfl
  · rw [h3, h2, h1]
    rfl

/-! ## C7: enabled-state filtering -/

theorem setPluginEnabled_set (r : List PluginNode) (i : Nat) (node : PluginNode)
    (hnode : r[i]? = some node) (b : Bool) :
    FreeImage_SetPluginEnabled r (i : Int) b =
      (r.set i { node with m_enabled := b }, if node.m_enabled then 1 else 0) := by
  unfold FreeImage_SetPluginEnabled FindNodeFromFIF
  rw [if_neg (by omega), Int.toNat_natCast, hnode]

/-- C7 — (confirmed).  Disabling a registered plugin removes it from
the format-name lookup, the MIME lookup and extension-based detection,
while id lookup still returns the same descriptor (with only its enabled
flag flipped); re-enabling it restores the original registry exactly.
`hwf` is the id-density invariant maintained by `AddNode`: each stored
node records its own position as its id. -/
theorem plugin_enabled_filtering (r : List PluginNode) (i : Nat)
    (hwf : ∀ (k : Nat) (n : PluginNode), r[k]? = some n → n.m_id = k)
    (node : PluginNode) (hnode : r[i]? = some node) :
    (∀ f n, FindNodeFromFormat (FreeImage_SetPluginEnabled r (i : Int) false).1 f =
        some n → n.m_id ≠ i) ∧
    (∀ s n, FindNodeFromMime (FreeImage_SetPluginEnabled r (i : Int) false).1 s =
        some n → n.m_id ≠ i) ∧
    (∀ fname, FreeImage_GetFIFFromFilename
        (FreeImage_SetPluginEnabled r (i : Int) false).1 fname ≠ (i : Int)) ∧
    (FindNodeFromFIF (FreeImage_SetPluginEnabled r (i : Int) false).1 (i : Int) =
      some { node with m_enabled := false }) ∧
    (node.m_enabled = true →
      (FreeImage_SetPluginEnabled
        (FreeImage_SetPluginEnabled r (i : Int) false).1 (i : Int) true).1 = r) := by
  have hlen : i < r.length := by
    rcases List.getElem?_eq_some_iff.mp hnode with ⟨h, _⟩
    exact h
  have hset := setPluginEnabled_set r i node hnode false
  have hr'eq : (FreeImage_SetPluginEnabled r (i : Int) false).1 =
      r.set i { node with m_enabled := false } := by rw [hset]
  have hwf' : ∀ (k : Nat) (n : PluginNode),
      (r.set i { node with m_enabled := false })[k]? = some n → n.m_id = k := by
    intro k n hk
    by_cases hik : i = k
    · subst hik
      rw [List.getElem?_set_self hlen] at hk
      have hn := Option.some.inj hk
      rw [← hn]
      exact hwf i node hnode
    · rw [List.getElem?_set_ne hik] at hk
      exact hwf k n hk
  have hdis : ∀ n, n ∈ r.set i { node with m_enabled := false } → n.m_id = i →
      n = { node with m_enabled := false } := by
    intro n hmem hid
    rcases List.mem_iff_getElem?.mp hmem with ⟨k, hk⟩
    have hk' := hwf' k n hk
    rw [← hk', hid] at hk
    rw [List.getElem?_set_self hlen] at hk
    exact (Option.some.inj hk).symm
  refine ⟨?_, ?_, ?_, ?_, ?_⟩
  · intro f n hfind hid
    rw [hr'eq] at hfind
    have hp := List.find?_some hfind
    have hmem := List.mem_of_find?_eq_some hfind
    rw [hdis n hmem hid] at hp
    simp at hp
  · intro s n hfind hid
    rw [hr'eq] at hfind
    have hp := List.find?_some hfind
    have hmem := List.mem_of_find?_eq_some hfind
    rw [hdis n hmem hid] at hp
    simp at hp
  · intro fname h
    rw [hr'eq] at h
    unfold FreeImage_GetFIFFromFilename at h
    split at h
    · rename_i k hidx
      have hk : k = i := by exact_mod_cast h
      subst hk
      rcases List.findIdx?_eq_some_iff_getElem.mp hidx with ⟨hklen, hpk, _⟩
      rw [List.getElem_set_self] at hpk
      simp at hpk
    · omega
  · rw [hr'eq]
    unfold FindNodeFromFIF
    rw [if_neg (by omega), Int.toNat_natCast]
    exact List.getElem?_set_self hlen
  · intro hen
    have hnode' : (r.set i { node with m_enabled := false })[i]? =
        some { node with m_enabled := false } := List.getElem?_set_self hlen
    have hset2 := setPluginEnabled_set (r.set i { node with m_enabled := false }) i
      { node with m_enabled := false } hnode' true
    rw [hr'eq, hset2]
    simp only [List.set_set]
    have hnn : { node with m_enabled := true } = node := by
      cases node
      simp_all
    rw [hnn]
    apply List.ext_getElem?
    intro k
    by_cases hik : i = k
    · subst hik
      rw [List.getElem?_set_self hlen, hnode]
    · rw [List.getElem?_set_ne hik]

/-- Witness for C7 on a concrete two-plugin registry: after disabling
plugin 0, id lookup still returns its (disabled) descriptor and
extension detection no longer resolves `photo.bmp` to id 0. -/
theorem plugin_enabled_filtering_witness :
    FindNodeFromFIF (FreeImage_SetPluginEnabled demoRegistry 0 false).1 0 =
      some { demoNode 0 "BMP" "image/bmp" "bmp" with m_enabled := false } ∧
    FreeImage_GetFIFFromFilename
      (FreeImage_SetPluginEnabled demoRegistry 0 false).1 "photo.bmp" ≠ 0 := by
  have hwf : ∀ (k : Nat) (n : PluginNode), demoRegistry[k]? = some n → n.m_id = k := by
    intro k n hk
    rcases k with _ | _ | k
    · injection hk with h
      rw [← h]
      rfl
    · injection hk with h
      rw [← h]
      rfl
    · simp [demoRegistry] at hk
  have h := plugin_enabled_filtering demoRegistry 0 hwf
    (demoNode 0 "BMP" "image/bmp" "bmp") rfl
  refine ⟨?_, ?_⟩
  · have h4 := h.2.2.2.1
    simpa using h4
  · have h3 := h.2.2.1 "photo.bmp"
    simpa using h3

/-! ## C5: the combined adjustment lookup table -/

theorem roundHalfUp_natCast (j : Nat) : roundHalfUp (j : ℚ) = j := by
  unfold roundHalfUp
  have h : ⌊(j : ℚ) + 1 / 2⌋ = (j : Int) := by
    rw [Int.floor_eq_iff]
    constructor
    · push_cast
      linarith
    · push_cast
      linarith
  rw [h]
  exact Int.toNat_natCast j

theorem contrastStage_neutral (d : Nat → ℚ) : contrastStage 0 d = d := by
  unfold contrastStage
  rw [if_neg (by norm_num)]

theorem gammaStage_neutral (powf : ℚ → ℚ → ℚ) (d : Nat → ℚ) :
    gammaStage powf 1 d = d := by
  unfold gammaStage
  rw [if_neg (by norm_num)]

theorem brightnessStage_neutral (d : Nat → ℚ) : brightnessStage 0 d = d := by
  unfold brightnessStage
  rw [if_neg (by norm_num)]

/-- C5 counterexample. —  The claim reads the final inversion as one
more floating-point transform applied before the round-half-up into
bytes.  At brightness = −50, contrast = 0, gamma = 1, invert = TRUE
(gamma path off, so the external `pow` is irrelevant), table entry 1 of
the claimed pipeline is `floor((255 − 0.5) + 0.5) = 255`, but the code
computes `255 − floor(0.5 + 0.5) = 254`: inversion happens after
rounding, not before. -/
theorem adjustColorsLUT_claim_counterexample :
    (FreeImage_GetAdjustColorsLookupTable (fun _ _ => 0) (-50) 0 1 true).1 1 = 254 ∧
    (specAdjustColorsLUT (fun _ _ => 0) (-50) 0 1 true).1 1 = 255 ∧
    (FreeImage_GetAdjustColorsLookupTable (fun _ _ => 0) (-50) 0 1 true).1 1 ≠
      (specAdjustColorsLUT (fun _ _ => 0) (-50) 0 1 true).1 1 := by
  have hd3 : gammaStage (fun _ _ => 0) 1
      (brightnessStage (-50) (contrastStage 0 (fun j => (j : ℚ)))) 1 = 1 / 2 := by
    rw [gammaStage_neutral, contrastStage_neutral]
    unfold brightnessStage
    rw [if_pos (by norm_num)]
    have hx : ((1 : Nat) : ℚ) * ((100 + -50) / 100) = 1 / 2 := by norm_num
    show clamp255 (((1 : Nat) : ℚ) * ((100 + -50) / 100)) = 1 / 2
    rw [hx]
    unfold clamp255
    rw [min_eq_left (by norm_num), max_eq_right (by norm_num)]
  have hround : roundHalfUp (1 / 2) = 1 := by
    unfold roundHalfUp
    have hx : (1 / 2 + 1 / 2 : ℚ) = 1 := by norm_num
    rw [hx, Int.floor_one]
    rfl
  have hcode : (FreeImage_GetAdjustColorsLookupTable (fun _ _ => 0) (-50) 0 1 true).1 1 =
      254 := by
    unfold FreeImage_GetAdjustColorsLookupTable
    rw [if_neg (by norm_num)]
    show 255 - roundHalfUp (gammaStage (fun _ _ => 0) 1
      (brightnessStage (-50) (contrastStage 0 (fun j => (j : ℚ)))) 1) = 254
    rw [hd3, hround]
  have hspec : (specAdjustColorsLUT (fun _ _ => 0) (-50) 0 1 true).1 1 = 255 := by
    unfold specAdjustColorsLUT
    show roundHalfUp (255 - gammaStage (fun _ _ => 0) 1
      (brightnessStage (-50) (contrastStage 0 (fun j => (j : ℚ)))) 1) = 255
    rw [hd3]
    unfold roundHalfUp
    have hx : (255 - 1 / 2 + 1 / 2 : ℚ) = 255 := by norm_num
    rw [hx]
    have h255 : ⌊(255 : ℚ)⌋ = 255 := by
      rw [Int.floor_eq_iff]
      norm_num
    rw [h255]
    rfl
  exact ⟨hcode, hspec, by rw [hcode, hspec]; omega⟩

/-- C5 — (corrected).  For every parameter assignment (the external
`pow` abstracted), `FreeImage_GetAdjustColorsLookupTable` builds exactly
the spec's pipeline — identity table, then contrast (when non-zero), then
brightness (when non-zero), then gamma (when positive and ≠ 1), each
clamped to [0,255], rounded into bytes with `floor(x+0.5)`, counting each
applied adjustment — amended in one point: the final inversion operates
on the already-rounded byte (`255 − floor(x+0.5)`), not on the double
before rounding.  In particular, at the neutral parameters the result is
the identity table `{0,...,255}` with adjustment count 0. -/
theorem adjustColorsLUT_amended (powf : ℚ → ℚ → ℚ)
    (brightness contrast gamma : ℚ) (invert : Bool) :
    FreeImage_GetAdjustColorsLookupTable powf brightness contrast gamma invert =
      specAdjustColorsLUTAmended powf brightness contrast gamma invert ∧
    (FreeImage_GetAdjustColorsLookupTable powf 0 0 1 false).1 = (fun j => j) ∧
    (FreeImage_GetAdjustColorsLookupTable powf 0 0 1 false).2 = 0 := by
  have hneutral : ∀ pf : ℚ → ℚ → ℚ,
      FreeImage_GetAdjustColorsLookupTable pf 0 0 1 false = (fun j => j, 0) := by
    intro pf
    unfold FreeImage_GetAdjustColorsLookupTable
    rw [if_pos ⟨rfl, rfl, rfl, rfl⟩]
  refine ⟨?_, by rw [hneutral], by rw [hneutral]⟩
  by_cases hn : brightness = 0 ∧ contrast = 0 ∧ gamma = 1 ∧ invert = false
  · obtain ⟨hb, hc, hg, hi⟩ := hn
    subst hb
    subst hc
    subst hg
    subst hi
    rw [hneutral]
    unfold specAdjustColorsLUTAmended
    rw [gammaStage_neutral, brightnessStage_neutral, contrastStage_neutral]
    rw [if_neg (by simp)]
    have hcnt : stageCount 0 0 1 = 0 := by
      unfold stageCount
      norm_num
    rw [hcnt]
    refine Prod.ext ?_ rfl
    funext j
    exact (roundHalfUp_natCast j).symm
  · unfold FreeImage_GetAdjustColorsLookupTable specAdjustColorsLUTAmended
    rw [if_neg hn]
    cases invert
    · rfl
    · rfl

/-! ## C2: guard behavior and up-front zeroing -/

theorem clearedOpt_zeroI {h : Option (Nat → Nat)} {s bins : Nat}
    (hs : h.isSome → 1 ≤ s) {m : Nat → Nat} (hm : clearedOpt h s bins = some m) :
    ∀ i < bins, m (i * s) = 0 := by
  rcases h with _ | m0
  · simp [clearedOpt] at hm
  · exact clearedOpt_zero (hs rfl) hm

/-- On every failing path of the post-guard body, each supplied buffer is
left in its cleared state: the first `bins` strided slots are zero. -/
theorem core_fail_zeroed (cabs : ℚ → ℚ → ℚ) (w ht : Nat) (hp : Bool)
    (data : BitmapData) (bins : Nat) (wantMin wantMax : Bool)
    (hR : Option (Nat → Nat)) (sR : Nat) (hG : Option (Nat → Nat)) (sG : Nat)
    (hB : Option (Nat → Nat)) (sB : Nat) (hL : Option (Nat → Nat)) (sL : Nat)
    (hsR : hR.isSome → 1 ≤ sR) (hsG : hG.isSome → 1 ≤ sG)
    (hsB : hB.isSome → 1 ≤ sB) (hsL : hL.isSome → 1 ≤ sL)
    (hfail : (MakeHistogramCore cabs ⟨w, ht, hp, data⟩ bins wantMin wantMax
      hR sR hG sG hB sB hL sL).ok = false) :
    (∀ m, (MakeHistogramCore cabs ⟨w, ht, hp, data⟩ bins wantMin wantMax
        hR sR hG sG hB sB hL sL).hR = some m → ∀ i < bins, m (i * sR) = 0) ∧
    (∀ m, (MakeHistogramCore cabs ⟨w, ht, hp, data⟩ bins wantMin wantMax
        hR sR hG sG hB sB hL sL).hG = some m → ∀ i < bins, m (i * sG) = 0) ∧
    (∀ m, (MakeHistogramCore cabs ⟨w, ht, hp, data⟩ bins wantMin wantMax
        hR sR hG sG hB sB hL sL).hB = some m → ∀ i < bins, m (i * sB) = 0) ∧
    (∀ m, (MakeHistogramCore cabs ⟨w, ht, hp, data⟩ bins wantMin wantMax
        hR sR hG sG hB sB hL sL).hL = some m → ∀ i < bins, m (i * sL) = 0) := by
  cases data
  case u8 ps => simp [MakeHistogramCore] at hfail
  case pal8 pal ps =>
    exact ⟨fun m hm => clearedOpt_zeroI hsR hm, fun m hm => clearedOpt_zeroI hsG hm,
      fun m hm => clearedOpt_zeroI hsB hm, fun m hm => clearedOpt_zeroI hsL hm⟩
  case rgb24 ps => simp [MakeHistogramCore] at hfail
  case rgba32 ps => simp [MakeHistogramCore] at hfail
  case bitmapOther =>
    exact ⟨fun m hm => clearedOpt_zeroI hsR hm, fun m hm => clearedOpt_zeroI hsG hm,
      fun m hm => clearedOpt_zeroI hsB hm, fun m hm => clearedOpt_zeroI hsL hm⟩
  case realF ps =>
    revert hfail
    rcases hmm : minmaxQ ps with _ | ⟨lo, hi⟩
    · intro hfail
      rw [show (MakeHistogramCore cabs ⟨w, ht, hp, BitmapData.realF ps⟩ bins
          wantMin wantMax hR sR hG sG hB sB hL sL) =
            ⟨false, clearedOpt hR sR bins, clearedOpt hG sG bins,
              clearedOpt hB sB bins, clearedOpt hL sL bins, none, none⟩ from by
        simp only [MakeHistogramCore, hmm]]
      exact ⟨fun m hm => clearedOpt_zeroI hsR hm, fun m hm => clearedOpt_zeroI hsG hm,
        fun m hm => clearedOpt_zeroI hsB hm, fun m hm => clearedOpt_zeroI hsL hm⟩
    · intro hfail
      by_cases hba : hi < lo ∨ bins < 1
      · rw [show (MakeHistogramCore cabs ⟨w, ht, hp, BitmapData.realF ps⟩ bins
          wantMin wantMax hR sR hG sG hB sB hL sL) =
            ⟨false, clearedOpt hR sR bins, clearedOpt hG sG bins,
              clearedOpt hB sB bins, clearedOpt hL sL bins,
              outIf wantMin (.q lo), outIf wantMax (.q hi)⟩ from by
          simp only [MakeHistogramCore, hmm]
          rw [if_pos hba]]
        exact ⟨fun m hm => clearedOpt_zeroI hsR hm, fun m hm => clearedOpt_zeroI hsG hm,
          fun m hm => clearedOpt_zeroI hsB hm, fun m hm => clearedOpt_zeroI hsL hm⟩
      · exfalso
        by_cases heq : lo = hi
        · rw [show (MakeHistogramCore cabs ⟨w, ht, hp, BitmapData.realF ps⟩ bins
            wantMin wantMax hR sR hG sG hB sB hL sL).ok = true from by
            simp only [MakeHistogramCore, hmm]
            rw [if_neg hba, if_pos heq]] at hfail
          exact Bool.noConfusion hfail
        · rw [show (MakeHistogramCore cabs ⟨w, ht, hp, BitmapData.realF ps⟩ bins
            wantMin wantMax hR sR hG sG hB sB hL sL).ok = true from by
            simp only [MakeHistogramCore, hmm]
            rw [if_neg hba, if_neg heq]] at hfail
          exact Bool.noConfusion hfail
  case rgbF ps =>
    revert hfail
    rcases hmm : minmaxQ (ps.flatMap fun p => [p.red, p.green, p.blue]) with _ | ⟨lo, hi⟩
    · intro hfail
      rw [show (MakeHistogramCore cabs ⟨w, ht, hp, BitmapData.rgbF ps⟩ bins
          wantMin wantMax hR sR hG sG hB sB hL sL) =
            ⟨false, clearedOpt hR sR bins, clearedOpt hG sG bins,
              clearedOpt hB sB bins, clearedOpt hL sL bins, none, none⟩ from by
        simp only [MakeHistogramCore, hmm]]
      exact ⟨fun m hm => clearedOpt_zeroI hsR hm, fun m hm => clearedOpt_zeroI hsG hm,
        fun m hm => clearedOpt_zeroI hsB hm, fun m hm => clearedOpt_zeroI hsL hm⟩
    · intro hfail
      by_cases hba : hi < lo ∨ bins < 1
      · rw [show (MakeHistogramCore cabs ⟨w, ht, hp, BitmapData.rgbF ps⟩ bins
          wantMin wantMax hR sR hG sG hB sB hL sL) =
            ⟨false, clearedOpt hR sR bins, clearedOpt hG sG bins,
              clearedOpt hB sB bins, clearedOpt hL sL bins,
              outIf wantMin (.q lo), outIf wantMax (.q hi)⟩ from by
          simp only [MakeHistogramCore, hmm]
          rw [if_pos hba]]
        exact ⟨fun m hm => clearedOpt_zeroI hsR hm, fun m hm => clearedOpt_zeroI hsG hm,
          fun m hm => clearedOpt_zeroI hsB hm, fun m hm => clearedOpt_zeroI hsL hm⟩
      · exfalso
        by_cases heq : lo = hi
        · rw [show (MakeHistogramCore cabs ⟨w, ht, hp, BitmapData.rgbF ps⟩ bins
            wantMin wantMax hR sR hG sG hB sB hL sL).ok = true from by
            simp only [MakeHistogramCore, hmm]
            rw [if_neg hba, if_pos heq]] at hfail
          exact Bool.noConfusion hfail
        · rw [show (MakeHistogramCore cabs ⟨w, ht, hp, BitmapData.rgbF ps⟩ bins
            wantMin wantMax hR sR hG sG hB sB hL sL).ok = true from by
            simp only [MakeHistogramCore, hmm]
            rw [if_neg hba, if_neg heq]] at hfail
          exact Bool.noConfusion hfail
  case cplx ps =>
    revert hfail
    rcases hmm : minmaxQ (ps.flatMap fun p => [p.r, p.i]) with _ | ⟨lo, hi⟩
    · intro hfail
      rw [show (MakeHistogramCore cabs ⟨w, ht, hp, BitmapData.cplx ps⟩ bins
          wantMin wantMax hR sR hG sG hB sB hL sL) =
            ⟨false, clearedOpt hR sR bins, clearedOpt hG sG bins,
              clearedOpt hB sB bins, clearedOpt hL sL bins, none, none⟩ from by
        simp only [MakeHistogramCore, hmm]]
      exact ⟨fun m hm => clearedOpt_zeroI hsR hm, fun m hm => clearedOpt_zeroI hsG hm,
        fun m hm => clearedOpt_zeroI hsB hm, fun m hm => clearedOpt_zeroI hsL hm⟩
    · intro hfail
      by_cases hba : hi < lo ∨ bins < 1
      · rw [show (MakeHistogramCore cabs ⟨w, ht, hp, BitmapData.cplx ps⟩ bins
          wantMin wantMax hR sR hG sG hB sB hL sL) =
            ⟨false, clearedOpt hR sR bins, clearedOpt hG sG bins,
              clearedOpt hB sB bins, clearedOpt hL sL bins,
              outIf wantMin (.q lo), outIf wantMax (.q hi)⟩ from by
          simp only [MakeHistogramCore, hmm]
          rw [if_pos hba]]
        exact ⟨fun m hm => clearedOpt_zeroI hsR hm, fun m hm => clearedOpt_zeroI hsG hm,
          fun m hm => clearedOpt_zeroI hsB hm, fun m hm => clearedOpt_zeroI hsL hm⟩
      · exfalso
        by_cases heq : lo = hi
        · rw [show (MakeHistogramCore cabs ⟨w, ht, hp, BitmapData.cplx ps⟩ bins
            wantMin wantMax hR sR hG sG hB sB hL sL).ok = true from by
            simp only [MakeHistogramCore, hmm]
            rw [if_neg hba, if_pos heq]] at hfail
          exact Bool.noConfusion hfail
        · rw [show (MakeHistogramCore cabs ⟨w, ht, hp, BitmapData.cplx ps⟩ bins
            wantMin wantMax hR sR hG sG hB sB hL sL).ok = true from by
            simp only [MakeHistogramCore, hmm]
            rw [if_neg hba, if_neg heq]] at hfail
          exact Bool.noConfusion hfail
  case rgb16 ps => simp [MakeHistogramCore] at hfail
  case rgb32w ps => simp [MakeHistogramCore] at hfail
  case u16 ps => simp [MakeHistogramCore] at hfail
  case u32 ps => simp [MakeHistogramCore] at hfail
  case i16 ps => simp [MakeHistogramCore] at hfail
  case i32 ps => simp [MakeHistogramCore] at hfail
  case other =>
    exact ⟨fun m hm => clearedOpt_zeroI hsR hm, fun m hm => clearedOpt_zeroI hsG hm,
      fun m hm => clearedOpt_zeroI hsB hm, fun m hm => clearedOpt_zeroI hsL hm⟩

/-- C2 — (confirmed).  `FreeImage_MakeHistogram` fails immediately —
returning the caller's buffers untouched — when the bitmap has no pixel
payload, when `binsNumber < 1`, or when any supplied buffer has stride 0
(the only non-positive `uint32_t`); it succeeds without touching anything
when all four buffer pointers are null; and once past the guards it zeros
every supplied buffer's first `binsNumber` strided slots up front, so on
any subsequent failure (e.g. an unrecognized pixel encoding) those slots
are still zero. -/
theorem makeHistogram_error_handling (cabs : ℚ → ℚ → ℚ) (dib : Bitmap) (bins : Nat)
    (wantMin wantMax : Bool)
    (hR : Option (Nat → Nat)) (sR : Nat) (hG : Option (Nat → Nat)) (sG : Nat)
    (hB : Option (Nat → Nat)) (sB : Nat) (hL : Option (Nat → Nat)) (sL : Nat) :
    (dib.hasPixels = false →
      FreeImage_MakeHistogram cabs dib bins wantMin wantMax hR sR hG sG hB sB hL sL =
        ⟨false, hR, hG, hB, hL, none, none⟩) ∧
    (bins = 0 →
      FreeImage_MakeHistogram cabs dib bins wantMin wantMax hR sR hG sG hB sB hL sL =
        ⟨false, hR, hG, hB, hL, none, none⟩) ∧
    (((hR.isSome ∧ sR = 0) ∨ (hG.isSome ∧ sG = 0) ∨
        (hB.isSome ∧ sB = 0) ∨ (hL.isSome ∧ sL = 0)) →
      FreeImage_MakeHistogram cabs dib bins wantMin wantMax hR sR hG sG hB sB hL sL =
        ⟨false, hR, hG, hB, hL, none, none⟩) ∧
    (dib.hasPixels = true → 1 ≤ bins →
      hR = none → hG = none → hB = none → hL = none →
      FreeImage_MakeHistogram cabs dib bins wantMin wantMax hR sR hG sG hB sB hL sL =
        ⟨true, none, none, none, none, none, none⟩) ∧
    (dib.hasPixels = true → 1 ≤ bins →
      (hR.isSome → 1 ≤ sR) → (hG.isSome → 1 ≤ sG) →
      (hB.isSome → 1 ≤ sB) → (hL.isSome → 1 ≤ sL) →
      (FreeImage_MakeHistogram cabs dib bins wantMin wantMax
        hR sR hG sG hB sB hL sL).ok = false →
      (∀ m, (FreeImage_MakeHistogram cabs dib bins wantMin wantMax
          hR sR hG sG hB sB hL sL).hR = some m → ∀ i < bins, m (i * sR) = 0) ∧
      (∀ m, (FreeImage_MakeHistogram cabs dib bins wantMin wantMax
          hR sR hG sG hB sB hL sL).hG = some m → ∀ i < bins, m (i * sG) = 0) ∧
      (∀ m, (FreeImage_MakeHistogram cabs dib bins wantMin wantMax
          hR sR hG sG hB sB hL sL).hB = some m → ∀ i < bins, m (i * sB) = 0) ∧
      (∀ m, (FreeImage_MakeHistogram cabs dib bins wantMin wantMax
          hR sR hG sG hB sB hL sL).hL = some m → ∀ i < bins, m (i * sL) = 0)) := by
  obtain ⟨w, ht, hpx, data⟩ := dib
  refine ⟨?_, ?_, ?_, ?_, ?_⟩
  · intro h
    unfold FreeImage_MakeHistogram
    rw [if_pos (Or.inl h)]
  · intro h
    unfold FreeImage_MakeHistogram
    rw [if_pos (Or.inr (by omega))]
  · intro h
    unfold FreeImage_MakeHistogram
    by_cases h1 : Bitmap.hasPixels ⟨w, ht, hpx, data⟩ = false ∨ bins < 1
    · rw [if_pos h1]
    · rw [if_neg h1, if_pos h]
  · intro hp hb e1 e2 e3 e4
    subst e1
    subst e2
    subst e3
    subst e4
    unfold FreeImage_MakeHistogram
    rw [if_neg (by
          intro hcon
          rcases hcon with hcon | hcon
          · rw [hp] at hcon
            exact Bool.noConfusion hcon
          · omega), if_neg (by simp), if_pos (by simp)]
  · intro hp hb h1 h2 h3 h4 hfail
    by_cases hall : hR.isNone ∧ hG.isNone ∧ hB.isNone ∧ hL.isNone
    · exfalso
      obtain ⟨e1, e2, e3, e4⟩ := hall
      rw [Option.isNone_iff_eq_none] at e1 e2 e3 e4
      subst e1
      subst e2
      subst e3
      subst e4
      rw [show FreeImage_MakeHistogram cabs ⟨w, ht, hpx, data⟩ bins wantMin wantMax
          none sR none sG none sB none sL =
            ⟨true, none, none, none, none, none, none⟩ from by
        unfold FreeImage_MakeHistogram
        rw [if_neg (by
          intro hcon
          rcases hcon with hcon | hcon
          · rw [hp] at hcon
            exact Bool.noConfusion hcon
          · omega), if_neg (by simp), if_pos (by simp)]]
        at hfail
      exact Bool.noConfusion hfail
    · have hg2 : ¬((hR.isSome ∧ sR = 0) ∨ (hG.isSome ∧ sG = 0) ∨
          (hB.isSome ∧ sB = 0) ∨ (hL.isSome ∧ sL = 0)) := by
        intro hcon
        rcases hcon with ⟨hs, hz⟩ | ⟨hs, hz⟩ | ⟨hs, hz⟩ | ⟨hs, hz⟩
        · have := h1 hs
          omega
        · have := h2 hs
          omega
        · have := h3 hs
          omega
        · have := h4 hs
          omega
      have heq := makeHistogram_eq_core cabs ⟨w, ht, hpx, data⟩ bins wantMin wantMax
        hR sR hG sG hB sB hL sL hp hb hg2 hall
      rw [heq] at hfail ⊢
      exact core_fail_zeroed cabs w ht hpx data bins wantMin wantMax
        hR sR hG sG hB sB hL sL h1 h2 h3 h4 hfail

/-- Witness for C2: a header-only bitmap is rejected with the buffer
untouched, and an unrecognized `FIT_BITMAP` encoding fails with the
supplied buffer's two strided slots zeroed. -/
theorem makeHistogram_error_handling_witness :
    (FreeImage_MakeHistogram (fun _ _ => 0) (Bitmap.mk 3 1 false BitmapData.bitmapOther)
        4 false false (some fun _ => 7) 1 none 1 none 1 none 1 =
      ⟨false, some fun _ => 7, none, none, none, none, none⟩) ∧
    ((FreeImage_MakeHistogram (fun _ _ => 0) (Bitmap.mk 1 1 true BitmapData.bitmapOther)
        2 false false (some fun _ => 5) 1 none 1 none 1 none 1).hR.map
      (fun m => (m 0, m 1))) = some (0, 0) := by
  constructor
  · exact (makeHistogram_error_handling (fun _ _ => 0)
      (Bitmap.mk 3 1 false BitmapData.bitmapOther) 4 false false
      (some fun _ => 7) 1 none 1 none 1 none 1).1 rfl
  · have h5 := (makeHistogram_error_handling (fun _ _ => 0)
      (Bitmap.mk 1 1 true BitmapData.bitmapOther) 2 false false
      (some fun _ => 5) 1 none 1 none 1 none 1).2.2.2.2 rfl (by omega)
      (fun _ => le_refl 1) (fun _ => le_refl 1) (fun _ => le_refl 1) (fun _ => le_refl 1) rfl
    obtain ⟨m, hm⟩ : ∃ m, (FreeImage_MakeHistogram (fun _ _ => 0)
        (Bitmap.mk 1 1 true BitmapData.bitmapOther) 2 false false
        (some fun _ => 5) 1 none 1 none 1 none 1).hR = some m := ⟨_, rfl⟩
    rw [hm]
    have h0 := h5.1 m hm 0 (by omega)
    have hone := h5.1 m hm 1 (by omega)
    simp only [Nat.zero_mul, Nat.one_mul] at h0 hone
    simp [h0, hone]

/-! ## C3: exact unsigned mapping at binsNumber = 256 -/

theorem runClearOpt_slot {α : Type} {h : Option (Nat → Nat)} {s bins : Nat}
    {idx : α → Nat} (ps : List α) (hs : 1 ≤ s)
    {m : Nat → Nat} (hm : runOpt (clearedOpt h s bins) s idx ps = some m)
    {j : Nat} (hj : j < bins) :
    m (j * s) = (ps.filter (fun p => idx p = j)).length := by
  rcases h with _ | m0
  · simp [clearedOpt, runOpt] at hm
  · obtain rfl : runHist (ClearHistogram m0 s bins) s idx ps = m := by
      simpa [clearedOpt, runOpt] using hm
    rw [runHist_slot s idx ps hs _ j, ClearHistogram_strided_eq_zero m0 hs hj,
      Nat.zero_add]

/-- C3 — (confirmed).  On an 8-bit grayscale bitmap with
`binsNumber = 256 = 2^8`, the engine takes the no-scale branch of
`HistogramUInt`, so the raw byte is the bin index and bin `i` holds the
exact count of pixels with value `i`, for every `i < 256`. -/
theorem histogram_u8_exact_mapping (cabs : ℚ → ℚ → ℚ) (w ht : Nat) (ps : List Nat)
    (wantMin wantMax : Bool) (m0 : Nat → Nat) (sR : Nat)
    (hG : Option (Nat → Nat)) (sG : Nat) (hB : Option (Nat → Nat)) (sB : Nat)
    (hL : Option (Nat → Nat)) (sL : Nat)
    (hsR : 1 ≤ sR) (hsG : hG.isSome → 1 ≤ sG) (hsB : hB.isSome → 1 ≤ sB)
    (hsL : hL.isSome → 1 ≤ sL)
    (hv : ∀ v ∈ ps, v < 256) :
    (FreeImage_MakeHistogram cabs ⟨w, ht, true, .u8 ps⟩ 256 wantMin wantMax
        (some m0) sR hG sG hB sB hL sL).ok = true ∧
    ∀ m, (FreeImage_MakeHistogram cabs ⟨w, ht, true, .u8 ps⟩ 256 wantMin wantMax
        (some m0) sR hG sG hB sB hL sL).hR = some m →
      ∀ i < 256, m (i * sR) = (ps.filter (fun v => v = i)).length := by
  have heq := makeHistogram_eq_core cabs ⟨w, ht, true, .u8 ps⟩ 256 wantMin wantMax
    (some m0) sR hG sG hB sB hL sL rfl (by omega)
    (by
      intro hcon
      rcases hcon with ⟨_, hz⟩ | ⟨hs, hz⟩ | ⟨hs, hz⟩ | ⟨hs, hz⟩
      · omega
      · have := hsG hs
        omega
      · have := hsB hs
        omega
      · have := hsL hs
        omega)
    (by simp)
  rw [heq]
  refine ⟨rfl, ?_⟩
  intro m hm i hi
  have hm' : runOpt (clearedOpt (some m0) sR 256) sR
      (fun v => binIdxU 8 256 v) ps = some m := hm
  rw [runClearOpt_slot ps hsR hm' hi]
  have hpred : ∀ v ∈ ps, (decide (binIdxU 8 256 v = i)) = (decide (v = i)) := by
    intro v hvm
    have hv' := hv v hvm
    have hbv : binIdxU 8 256 v = v := by
      unfold binIdxU clampBin
      rw [if_pos (by norm_num)]
      omega
    rw [hbv]
  rw [List.filter_congr hpred]

/-- Witness for C3: pixels `[3, 3, 7]` at 256 bins give bin 3 = 2,
bin 7 = 1, bin 0 = 0. -/
theorem histogram_u8_exact_mapping_witness :
    ((FreeImage_MakeHistogram (fun _ _ => 0) ⟨3, 1, true, BitmapData.u8 [3, 3, 7]⟩
        256 false false (some fun _ => 0) 1 none 1 none 1 none 1).hR.map
      (fun m => (m 3, m 7, m 0))) = some (2, 1, 0) := by
  have h := histogram_u8_exact_mapping (fun _ _ => 0) 3 1 [3, 3, 7] false false
    (fun _ => 0) 1 none 1 none 1 none 1 (le_refl 1)
    (fun hx => absurd hx (by simp)) (fun hx => absurd hx (by simp))
    (fun hx => absurd hx (by simp)) (by decide)
  obtain ⟨m, hm⟩ : ∃ m, (FreeImage_MakeHistogram (fun _ _ => 0)
      ⟨3, 1, true, BitmapData.u8 [3, 3, 7]⟩ 256 false false
      (some fun _ => 0) 1 none 1 none 1 none 1).hR = some m := ⟨_, rfl⟩
  rw [hm]
  have h3 := h.2 m hm 3 (by omega)
  have h7 := h.2 m hm 7 (by omega)
  have h0 := h.2 m hm 0 (by omega)
  simp only [Nat.mul_one] at h3 h7 h0
  show some (m 3, m 7, m 0) = some (2, 1, 0)
  rw [h3, h7, h0]
  rfl

/-! ## C4: degenerate float range -/

theorem minmaxQ_const {v : ℚ} {ps : List ℚ} (hne : ps ≠ []) (hc : ∀ x ∈ ps, x = v) :
    minmaxQ ps = some (v, v) := by
  rcases ps with _ | ⟨x, t⟩
  · exact absurd rfl hne
  · have hx : x = v := hc x (List.mem_cons_self x t)
    subst hx
    unfold minmaxQ
    have haux : ∀ u : List ℚ, (∀ y ∈ u, y = x) →
        u.foldl (fun ac y => (min ac.1 y, max ac.2 y)) (x, x) = (x, x) := by
      intro u
      induction u with
      | nil => intro _; rfl
      | cons y u ih =>
        intro hu
        have hy : y = x := hu y (List.mem_cons_self y u)
        subst hy
        simp only [List.foldl_cons, min_self, max_self]
        exact ih (fun z hz => hu z (List.mem_cons_of_mem y hz))
    show some (t.foldl (fun ac y => (min ac.1 y, max ac.2 y)) (x, x)) = some (x, x)
    rw [haux t (fun z hz => hc z (List.mem_cons_of_mem x hz))]

theorem setZeroClearOpt_factsI {h : Option (Nat → Nat)} {s bins v : Nat}
    (hs : h.isSome → 1 ≤ s) (hb : 1 ≤ bins)
    {m : Nat → Nat} (hm : setZeroOpt (clearedOpt h s bins) v = some m) :
    histSum m s bins = v ∧ m 0 = v ∧ (∀ i, 0 < i → i < bins → m (i * s) = 0) := by
  rcases h with _ | m0
  · simp [clearedOpt, setZeroOpt] at hm
  · exact setZeroClearOpt_facts (hs rfl) hb hm

/-- C4 — (confirmed; the bounds scan `FreeImage_FindMinMaxValue` is
modelled from the spec).  On a `FIT_FLOAT`/`FIT_DOUBLE` bitmap whose
channel is constant at `v`, the discovered minimum equals the discovered
maximum, so `HistogramFloat` takes the degenerate fast path: the call
succeeds, bin 0 of the engine-driven buffer receives the pixel count
`width * height` directly, every other bin stays zero, oversupplied
buffers stay entirely zero, and `v` is written through both non-null out
pointers. -/
theorem histogram_float_degenerate (cabs : ℚ → ℚ → ℚ) (w ht : Nat) (v : ℚ)
    (ps : List ℚ) (bins : Nat) (wantMin wantMax : Bool)
    (m0 : Nat → Nat) (sR : Nat)
    (hG : Option (Nat → Nat)) (sG : Nat) (hB : Option (Nat → Nat)) (sB : Nat)
    (hL : Option (Nat → Nat)) (sL : Nat)
    (hb : 1 ≤ bins) (hsR : 1 ≤ sR) (hsG : hG.isSome → 1 ≤ sG)
    (hsB : hB.isSome → 1 ≤ sB) (hsL : hL.isSome → 1 ≤ sL)
    (hne : ps ≠ []) (hc : ∀ x ∈ ps, x = v) :
    (FreeImage_MakeHistogram cabs ⟨w, ht, true, .realF ps⟩ bins wantMin wantMax
        (some m0) sR hG sG hB sB hL sL).ok = true ∧
    (∀ m, (FreeImage_MakeHistogram cabs ⟨w, ht, true, .realF ps⟩ bins wantMin wantMax
        (some m0) sR hG sG hB sB hL sL).hR = some m →
      m 0 = w * ht ∧ ∀ i, 0 < i → i < bins → m (i * sR) = 0) ∧
    (∀ m, (FreeImage_MakeHistogram cabs ⟨w, ht, true, .realF ps⟩ bins wantMin wantMax
        (some m0) sR hG sG hB sB hL sL).hG = some m → ∀ i < bins, m (i * sG) = 0) ∧
    (∀ m, (FreeImage_MakeHistogram cabs ⟨w, ht, true, .realF ps⟩ bins wantMin wantMax
        (some m0) sR hG sG hB sB hL sL).hB = some m → ∀ i < bins, m (i * sB) = 0) ∧
    (∀ m, (FreeImage_MakeHistogram cabs ⟨w, ht, true, .realF ps⟩ bins wantMin wantMax
        (some m0) sR hG sG hB sB hL sL).hL = some m → ∀ i < bins, m (i * sL) = 0) ∧
    (wantMin = true →
      (FreeImage_MakeHistogram cabs ⟨w, ht, true, .realF ps⟩ bins wantMin wantMax
        (some m0) sR hG sG hB sB hL sL).outMin = some (.q v)) ∧
    (wantMax = true →
      (FreeImage_MakeHistogram cabs ⟨w, ht, true, .realF ps⟩ bins wantMin wantMax
        (some m0) sR hG sG hB sB hL sL).outMax = some (.q v)) := by
  have heq := makeHistogram_eq_core cabs ⟨w, ht, true, .realF ps⟩ bins wantMin wantMax
    (some m0) sR hG sG hB sB hL sL rfl (by omega)
    (by
      intro hcon
      rcases hcon with ⟨_, hz⟩ | ⟨hs, hz⟩ | ⟨hs, hz⟩ | ⟨hs, hz⟩
      · omega
      · have := hsG hs
        omega
      · have := hsB hs
        omega
      · have := hsL hs
        omega)
    (by simp)
  have hmm := minmaxQ_const hne hc
  have hcore : MakeHistogramCore cabs ⟨w, ht, true, .realF ps⟩ bins wantMin wantMax
      (some m0) sR hG sG hB sB hL sL =
        ⟨true, setZeroOpt (clearedOpt (some m0) sR bins) (w * ht),
          clearedOpt hG sG bins, clearedOpt hB sB bins, clearedOpt hL sL bins,
          outIf wantMin (.q v), outIf wantMax (.q v)⟩ := by
    simp only [MakeHistogramCore, hmm]
    rw [if_neg (by
        intro hcon
        rcases hcon with hcon | hcon
        · exact lt_irrefl v hcon
        · omega),
      if_pos trivial]
  rw [heq, hcore]
  refine ⟨rfl, ?_, ?_, ?_, ?_, ?_, ?_⟩
  · intro m hm
    have hm' : setZeroOpt (clearedOpt (some m0) sR bins) (w * ht) = some m := hm
    have hfacts := setZeroClearOpt_factsI (fun _ => hsR) hb hm'
    exact ⟨hfacts.2.1, hfacts.2.2⟩
  · intro m hm
    exact clearedOpt_zeroI hsG hm
  · intro m hm
    exact clearedOpt_zeroI hsB hm
  · intro m hm
    exact clearedOpt_zeroI hsL hm
  · intro hw
    simp [outIf, hw]
  · intro hw
    simp [outIf, hw]

/-- Witness for C4: a 2×1 `FIT_FLOAT` bitmap constant at 5 with 3 bins:
bin 0 holds 2, bins 1 and 2 hold 0, and both out cells receive 5. -/
theorem histogram_float_degenerate_witness :
    ((FreeImage_MakeHistogram (fun _ _ => 0) ⟨2, 1, true, BitmapData.realF [5, 5]⟩
        3 true true (some fun _ => 0) 1 none 1 none 1 none 1).hR.map
      (fun m => (m 0, m 1, m 2))) = some (2, 0, 0) ∧
    (FreeImage_MakeHistogram (fun _ _ => 0) ⟨2, 1, true, BitmapData.realF [5, 5]⟩
        3 true true (some fun _ => 0) 1 none 1 none 1 none 1).outMin = some (.q 5) ∧
    (FreeImage_MakeHistogram (fun _ _ => 0) ⟨2, 1, true, BitmapData.realF [5, 5]⟩
        3 true true (some fun _ => 0) 1 none 1 none 1 none 1).outMax = some (.q 5) := by
  have h := histogram_float_degenerate (fun _ _ => 0) 2 1 5 [5, 5] 3 true true
    (fun _ => 0) 1 none 1 none 1 none 1 (by omega) (le_refl 1)
    (fun hx => absurd hx (by simp)) (fun hx => absurd hx (by simp))
    (fun hx => absurd hx (by simp)) (by simp)
    (by
      intro x hx
      fin_cases hx <;> rfl)
  obtain ⟨m, hm⟩ : ∃ m, (FreeImage_MakeHistogram (fun _ _ => 0)
      ⟨2, 1, true, BitmapData.realF [5, 5]⟩ 3 true true
      (some fun _ => 0) 1 none 1 none 1 none 1).hR = some m := ⟨_, rfl⟩
  have hr := h.2.1 m hm
  have h1 := hr.2 1 (by omega) (by omega)
  have h2 := hr.2 2 (by omega) (by omega)
  simp only [Nat.mul_one] at h1 h2
  refine ⟨?_, h.2.2.2.2.2.1 rfl, h.2.2.2.2.2.2 rfl⟩
  rw [hm]
  show some (m 0, m 1, m 2) = some (2, 0, 0)
  rw [hr.1, h1, h2]

/-! ## C1: histogram mass conservation -/

theorem runClearOpt_massI {α : Type} {h : Option (Nat → Nat)} {s bins : Nat}
    {idx : α → Nat} (ps : List α) (hs : h.isSome → 1 ≤ s)
    (hbnd : ∀ p ∈ ps, idx p < bins)
    {m : Nat → Nat} (hm : runOpt (clearedOpt h s bins) s idx ps = some m) :
    histSum m s bins = ps.length := by
  rcases h with _ | m0
  · simp [clearedOpt, runOpt] at hm
  · exact runClearOpt_mass ps (hs rfl) hbnd hm

/-- C1 counterexample. —  A 1×1 `FIT_FLOAT` bitmap supports only the
identity channel, yet supplying a buffer for the green channel is
accepted: the call returns success (`ok = true`) while the requested
green buffer's `binsNumber` strided entries sum to 0 — not to the pixel
count `1 * 1 = 1` the claim demands for every non-null requested
buffer. -/
theorem histogram_mass_claim_counterexample :
    (FreeImage_MakeHistogram (fun _ _ => 0) ⟨1, 1, true, BitmapData.realF [0]⟩ 1
        false false none 1 (some fun _ => 9) 1 none 1 none 1).ok = true ∧
    ((FreeImage_MakeHistogram (fun _ _ => 0) ⟨1, 1, true, BitmapData.realF [0]⟩ 1
        false false none 1 (some fun _ => 9) 1 none 1 none 1).hG.map
      (fun m => histSum m 1 1)) = some 0 ∧
    (0 : Nat) ≠ 1 * 1 := by
  have heq := makeHistogram_eq_core (fun _ _ => 0) ⟨1, 1, true, BitmapData.realF [0]⟩
    1 false false none 1 (some fun _ => 9) 1 none 1 none 1 rfl (by omega)
    (by simp) (by simp)
  have hmm : minmaxQ [(0 : ℚ)] = some (0, 0) := rfl
  have hcore : MakeHistogramCore (fun _ _ => 0) ⟨1, 1, true, BitmapData.realF [0]⟩
      1 false false none 1 (some fun _ => 9) 1 none 1 none 1 =
        ⟨true, none, some (ClearHistogram (fun _ => 9) 1 1), none, none, none, none⟩ := by
    simp only [MakeHistogramCore, hmm]
    norm_num [setZeroOpt, clearedOpt, outIf]
  rw [heq, hcore]
  refine ⟨rfl, ?_, by omega⟩
  show some (histSum (ClearHistogram (fun _ => 9) 1 1) 1 1) = some 0
  rw [histSum_clear _ 1 (le_refl 1)]

/-- C1 — (corrected).  Mass conservation holds exactly for the channel
buffers the dispatch arm drives: whenever `FreeImage_MakeHistogram`
accepts a request on a bitmap whose stored pixels match its dimensions,
every non-null buffer of a channel the pixel encoding supports ends with
its `binsNumber` strided entries summing to `width * height`, while a
non-null buffer supplied for an unsupported channel is left zeroed — all
its strided entries are 0, so its sum is 0, not the pixel count. -/
theorem histogram_mass_conservation_amended (cabs : ℚ → ℚ → ℚ) (dib : Bitmap)
    (bins : Nat) (wantMin wantMax : Bool)
    (hR : Option (Nat → Nat)) (sR : Nat) (hG : Option (Nat → Nat)) (sG : Nat)
    (hB : Option (Nat → Nat)) (sB : Nat) (hL : Option (Nat → Nat)) (sL : Nat)
    (hwf : pixelCount dib.data = dib.width * dib.height)
    (hok : (FreeImage_MakeHistogram cabs dib bins wantMin wantMax
      hR sR hG sG hB sB hL sL).ok = true) :
    (∀ m, (FreeImage_MakeHistogram cabs dib bins wantMin wantMax
        hR sR hG sG hB sB hL sL).hR = some m →
      (usesR dib.data = true → histSum m sR bins = dib.width * dib.height) ∧
      (usesR dib.data = false → ∀ i < bins, m (i * sR) = 0)) ∧
    (∀ m, (FreeImage_MakeHistogram cabs dib bins wantMin wantMax
        hR sR hG sG hB sB hL sL).hG = some m →
      (usesG dib.data = true → histSum m sG bins = dib.width * dib.height) ∧
      (usesG dib.data = false → ∀ i < bins, m (i * sG) = 0)) ∧
    (∀ m, (FreeImage_MakeHistogram cabs dib bins wantMin wantMax
        hR sR hG sG hB sB hL sL).hB = some m →
      (usesB dib.data = true → histSum m sB bins = dib.width * dib.height) ∧
      (usesB dib.data = false → ∀ i < bins, m (i * sB) = 0)) ∧
    (∀ m, (FreeImage_MakeHistogram cabs dib bins wantMin wantMax
        hR sR hG sG hB sB hL sL).hL = some m →
      (usesL dib.data = true → histSum m sL bins = dib.width * dib.height) ∧
      (usesL dib.data = false → ∀ i < bins, m (i * sL) = 0)) := by
  obtain ⟨w, ht, hpx, data⟩ := dib
  rcases makeHistogram_ok_elim cabs ⟨w, ht, hpx, data⟩ bins wantMin wantMax
      hR sR hG sG hB sB hL sL hok with
    ⟨e1, e2, e3, e4, heq⟩ | ⟨hp, hb, h1, h2, h3, h4, heq⟩
  · subst e1
    subst e2
    subst e3
    subst e4
    rw [heq]
    exact ⟨fun m hm => Option.noConfusion hm, fun m hm => Option.noConfusion hm,
      fun m hm => Option.noConfusion hm, fun m hm => Option.noConfusion hm⟩
  · rw [heq] at hok ⊢
    cases data
    case u8 ps =>
      refine ⟨?_, ?_, ?_, ?_⟩
      · intro m hm
        refine ⟨fun _ => ?_, fun hf => Bool.noConfusion hf⟩
        exact (runClearOpt_massI ps h1 (fun p _ => binIdxU_lt hb 8 p) hm).trans hwf
      · intro m hm
        exact ⟨fun htr => Bool.noConfusion htr, fun _ => clearedOpt_zeroI h2 hm⟩
      · intro m hm
        exact ⟨fun htr => Bool.noConfusion htr, fun _ => clearedOpt_zeroI h3 hm⟩
      · intro m hm
        exact ⟨fun htr => Bool.noConfusion htr, fun _ => clearedOpt_zeroI h4 hm⟩
    case pal8 pal ps => exact Bool.noConfusion hok
    case rgb24 ps =>
      refine ⟨?_, ?_, ?_, ?_⟩
      · intro m hm
        refine ⟨fun _ => ?_, fun hf => Bool.noConfusion hf⟩
        exact (runClearOpt_massI ps h1 (fun p _ => binIdxU_lt hb 8 _) hm).trans hwf
      · intro m hm
        refine ⟨fun _ => ?_, fun hf => Bool.noConfusion hf⟩
        exact (runClearOpt_massI ps h2 (fun p _ => binIdxU_lt hb 8 _) hm).trans hwf
      · intro m hm
        refine ⟨fun _ => ?_, fun hf => Bool.noConfusion hf⟩
        exact (runClearOpt_massI ps h3 (fun p _ => binIdxU_lt hb 8 _) hm).trans hwf
      · intro m hm
        refine ⟨fun _ => ?_, fun hf => Bool.noConfusion hf⟩
        exact (runClearOpt_massI ps h4 (fun p _ => binIdxU_lt hb 8 _) hm).trans hwf
    case rgba32 ps =>
      refine ⟨?_, ?_, ?_, ?_⟩
      · intro m hm
        refine ⟨fun _ => ?_, fun hf => Bool.noConfusion hf⟩
        exact (runClearOpt_massI ps h1 (fun p _ => binIdxU_lt hb 8 _) hm).trans hwf
      · intro m hm
        refine ⟨fun _ => ?_, fun hf => Bool.noConfusion hf⟩
        exact (runClearOpt_massI ps h2 (fun p _ => binIdxU_lt hb 8 _) hm).trans hwf
      · intro m hm
        refine ⟨fun _ => ?_, fun hf => Bool.noConfusion hf⟩
        exact (runClearOpt_massI ps h3 (fun p _ => binIdxU_lt hb 8 _) hm).trans hwf
      · intro m hm
        refine ⟨fun _ => ?_, fun hf => Bool.noConfusion hf⟩
        exact (runClearOpt_massI ps h4 (fun p _ => binIdxU_lt hb 8 _) hm).trans hwf
    case bitmapOther => exact Bool.noConfusion hok
    case realF ps =>
      rcases hmm : minmaxQ ps with _ | ⟨lo, hi⟩
      · rw [show (MakeHistogramCore cabs ⟨w, ht, hpx, BitmapData.realF ps⟩ bins
          wantMin wantMax hR sR hG sG hB sB hL sL) =
            ⟨false, clearedOpt hR sR bins, clearedOpt hG sG bins,
              clearedOpt hB sB bins, clearedOpt hL sL bins, none, none⟩ from by
          simp only [MakeHistogramCore, hmm]] at hok
        exact Bool.noConfusion hok
      · by_cases hba : hi < lo ∨ bins < 1
        · rw [show (MakeHistogramCore cabs ⟨w, ht, hpx, BitmapData.realF ps⟩ bins
            wantMin wantMax hR sR hG sG hB sB hL sL) =
              ⟨false, clearedOpt hR sR bins, clearedOpt hG sG bins,
                clearedOpt hB sB bins, clearedOpt hL sL bins,
                outIf wantMin (.q lo), outIf wantMax (.q hi)⟩ from by
            simp only [MakeHistogramCore, hmm]
            rw [if_pos hba]] at hok
          exact Bool.noConfusion hok
        · by_cases hdeg : lo = hi
          · rw [show (MakeHistogramCore cabs ⟨w, ht, hpx, BitmapData.realF ps⟩ bins
              wantMin wantMax hR sR hG sG hB sB hL sL) =
                ⟨true, setZeroOpt (clearedOpt hR sR bins) (w * ht),
                  clearedOpt hG sG bins, clearedOpt hB sB bins, clearedOpt hL sL bins,
                  outIf wantMin (.q lo), outIf wantMax (.q hi)⟩ from by
              simp only [MakeHistogramCore, hmm]
              rw [if_neg hba, if_pos hdeg]]
            refine ⟨?_, ?_, ?_, ?_⟩
            · intro m hm
              have hm' : setZeroOpt (clearedOpt hR sR bins) (w * ht) = some m := hm
              exact ⟨fun _ => (setZeroClearOpt_factsI h1 hb hm').1,
                fun hf => Bool.noConfusion hf⟩
            · intro m hm
              exact ⟨fun htr => Bool.noConfusion htr, fun _ => clearedOpt_zeroI h2 hm⟩
            · intro m hm
              exact ⟨fun htr => Bool.noConfusion htr, fun _ => clearedOpt_zeroI h3 hm⟩
            · intro m hm
              exact ⟨fun htr => Bool.noConfusion htr, fun _ => clearedOpt_zeroI h4 hm⟩
          · rw [show (MakeHistogramCore cabs ⟨w, ht, hpx, BitmapData.realF ps⟩ bins
              wantMin wantMax hR sR hG sG hB sB hL sL) =
                ⟨true, runOpt (clearedOpt hR sR bins) sR
                    (fun v => binIdxF bins lo hi v) ps,
                  clearedOpt hG sG bins, clearedOpt hB sB bins, clearedOpt hL sL bins,
                  outIf wantMin (.q lo), outIf wantMax (.q hi)⟩ from by
              simp only [MakeHistogramCore, hmm]
              rw [if_neg hba, if_neg hdeg]]
            refine ⟨?_, ?_, ?_, ?_⟩
            · intro m hm
              refine ⟨fun _ => ?_, fun hf => Bool.noConfusion hf⟩
              exact (runClearOpt_massI ps h1 (fun p _ => binIdxF_lt hb lo hi _) hm).trans hwf
            · intro m hm
              exact ⟨fun htr => Bool.noConfusion htr, fun _ => clearedOpt_zeroI h2 hm⟩
            · intro m hm
              exact ⟨fun htr => Bool.noConfusion htr, fun _ => clearedOpt_zeroI h3 hm⟩
            · intro m hm
              exact ⟨fun htr => Bool.noConfusion htr, fun _ => clearedOpt_zeroI h4 hm⟩
    case rgbF ps =>
      rcases hmm : minmaxQ (ps.flatMap fun p => [p.red, p.green, p.blue]) with _ | ⟨lo, hi⟩
      · rw [show (MakeHistogramCore cabs ⟨w, ht, hpx, BitmapData.rgbF ps⟩ bins
          wantMin wantMax hR sR hG sG hB sB hL sL) =
            ⟨false, clearedOpt hR sR bins, clearedOpt hG sG bins,
              clearedOpt hB sB bins, clearedOpt hL sL bins, none, none⟩ from by
          simp only [MakeHistogramCore, hmm]] at hok
        exact Bool.noConfusion hok
      · by_cases hba : hi < lo ∨ bins < 1
        · rw [show (MakeHistogramCore cabs ⟨w, ht, hpx, BitmapData.rgbF ps⟩ bins
            wantMin wantMax hR sR hG sG hB sB hL sL) =
              ⟨false, clearedOpt hR sR bins, clearedOpt hG sG bins,
                clearedOpt hB sB bins, clearedOpt hL sL bins,
                outIf wantMin (.q lo), outIf wantMax (.q hi)⟩ from by
            simp only [MakeHistogramCore, hmm]
            rw [if_pos hba]] at hok
          exact Bool.noConfusion hok
        · by_cases hdeg : lo = hi
          · rw [show (MakeHistogramCore cabs ⟨w, ht, hpx, BitmapData.rgbF ps⟩ bins
              wantMin wantMax hR sR hG sG hB sB hL sL) =
                ⟨true, setZeroOpt (clearedOpt hR sR bins) (w * ht),
                  setZeroOpt (clearedOpt hG sG bins) (w * ht),
                  setZeroOpt (clearedOpt hB sB bins) (w * ht),
                  setZeroOpt (clearedOpt hL sL bins) (w * ht),
                  outIf wantMin (.q lo), outIf wantMax (.q hi)⟩ from by
              simp only [MakeHistogramCore, hmm]
              rw [if_neg hba, if_pos hdeg]]
            refine ⟨?_, ?_, ?_, ?_⟩
            · intro m hm
              have hm' : setZeroOpt (clearedOpt hR sR bins) (w * ht) = some m := hm
              exact ⟨fun _ => (setZeroClearOpt_factsI h1 hb hm').1,
                fun hf => Bool.noConfusion hf⟩
            · intro m hm
              have hm' : setZeroOpt (clearedOpt hG sG bins) (w * ht) = some m := hm
              exact ⟨fun _ => (setZeroClearOpt_factsI h2 hb hm').1,
                fun hf => Bool.noConfusion hf⟩
            · intro m hm
              have hm' : setZeroOpt (clearedOpt hB sB bins) (w * ht) = some m := hm
              exact ⟨fun _ => (setZeroClearOpt_factsI h3 hb hm').1,
                fun hf => Bool.noConfusion hf⟩
            · intro m hm
              have hm' : setZeroOpt (clearedOpt hL sL bins) (w * ht) = some m := hm
              exact ⟨fun _ => (setZeroClearOpt_factsI h4 hb hm').1,
                fun hf => Bool.noConfusion hf⟩
          · rw [show (MakeHistogramCore cabs ⟨w, ht, hpx, BitmapData.rgbF ps⟩ bins
              wantMin wantMax hR sR hG sG hB sB hL sL) =
                ⟨true,
                  runOpt (clearedOpt hR sR bins) sR
                    (fun p => binIdxF bins lo hi p.red) ps,
                  runOpt (clearedOpt hG sG bins) sG
                    (fun p => binIdxF bins lo hi p.green) ps,
                  runOpt (clearedOpt hB sB bins) sB
                    (fun p => binIdxF bins lo hi p.blue) ps,
                  runOpt (clearedOpt hL sL bins) sL
                    (fun p => binIdxF bins lo hi (greyQ p.red p.green p.blue)) ps,
                  outIf wantMin (.q lo), outIf wantMax (.q hi)⟩ from by
              simp only [MakeHistogramCore, hmm]
              rw [if_neg hba, if_neg hdeg]]
            refine ⟨?_, ?_, ?_, ?_⟩
            · intro m hm
              refine ⟨fun _ => ?_, fun hf => Bool.noConfusion hf⟩
              exact (runClearOpt_massI ps h1 (fun p _ => binIdxF_lt hb lo hi _) hm).trans hwf
            · intro m hm
              refine ⟨fun _ => ?_, fun hf => Bool.noConfusion hf⟩
              exact (runClearOpt_massI ps h2 (fun p _ => binIdxF_lt hb lo hi _) hm).trans hwf
            · intro m hm
              refine ⟨fun _ => ?_, fun hf => Bool.noConfusion hf⟩
              exact (runClearOpt_massI ps h3 (fun p _ => binIdxF_lt hb lo hi _) hm).trans hwf
            · intro m hm
              refine ⟨fun _ => ?_, fun hf => Bool.noConfusion hf⟩
              exact (runClearOpt_massI ps h4 (fun p _ => binIdxF_lt hb lo hi _) hm).trans hwf
    case cplx ps =>
      rcases hmm : minmaxQ (ps.flatMap fun p => [p.r, p.i]) with _ | ⟨lo, hi⟩
      · rw [show (MakeHistogramCore cabs ⟨w, ht, hpx, BitmapData.cplx ps⟩ bins
          wantMin wantMax hR sR hG sG hB sB hL sL) =
            ⟨false, clearedOpt hR sR bins, clearedOpt hG sG bins,
              clearedOpt hB sB bins, clearedOpt hL sL bins, none, none⟩ from by
          simp only [MakeHistogramCore, hmm]] at hok
        exact Bool.noConfusion hok
      · by_cases hba : hi < lo ∨ bins < 1
        · rw [show (MakeHistogramCore cabs ⟨w, ht, hpx, BitmapData.cplx ps⟩ bins
            wantMin wantMax hR sR hG sG hB sB hL sL) =
              ⟨false, clearedOpt hR sR bins, clearedOpt hG sG bins,
                clearedOpt hB sB bins, clearedOpt hL sL bins,
                outIf wantMin (.q lo), outIf wantMax (.q hi)⟩ from by
            simp only [MakeHistogramCore, hmm]
            rw [if_pos hba]] at hok
          exact Bool.noConfusion hok
        · by_cases hdeg : lo = hi
          · rw [show (MakeHistogramCore cabs ⟨w, ht, hpx, BitmapData.cplx ps⟩ bins
              wantMin wantMax hR sR hG sG hB sB hL sL) =
                ⟨true, setZeroOpt (clearedOpt hR sR bins) (w * ht),
                  setZeroOpt (clearedOpt hG sG bins) (w * ht),
                  setZeroOpt (clearedOpt hB sB bins) (w * ht),
                  clearedOpt hL sL bins,
                  outIf wantMin (.q lo), outIf wantMax (.q hi)⟩ from by
              simp only [MakeHistogramCore, hmm]
              rw [if_neg hba, if_pos hdeg]]
            refine ⟨?_, ?_, ?_, ?_⟩
            · intro m hm
              have hm' : setZeroOpt (clearedOpt hR sR bins) (w * ht) = some m := hm
              exact ⟨fun _ => (setZeroClearOpt_factsI h1 hb hm').1,
                fun hf => Bool.noConfusion hf⟩
            · intro m hm
              have hm' : setZeroOpt (clearedOpt hG sG bins) (w * ht) = some m := hm
              exact ⟨fun _ => (setZeroClearOpt_factsI h2 hb hm').1,
                fun hf => Bool.noConfusion hf⟩
            · intro m hm
              have hm' : setZeroOpt (clearedOpt hB sB bins) (w * ht) = some m := hm
              exact ⟨fun _ => (setZeroClearOpt_factsI h3 hb hm').1,
                fun hf => Bool.noConfusion hf⟩
            · intro m hm
              exact ⟨fun htr => Bool.noConfusion htr, fun _ => clearedOpt_zeroI h4 hm⟩
          · rw [show (MakeHistogramCore cabs ⟨w, ht, hpx, BitmapData.cplx ps⟩ bins
              wantMin wantMax hR sR hG sG hB sB hL sL) =
                ⟨true,
                  runOpt (clearedOpt hR sR bins) sR
                    (fun p => binIdxF bins lo hi p.r) ps,
                  runOpt (clearedOpt hG sG bins) sG
                    (fun p => binIdxF bins lo hi p.i) ps,
                  runOpt (clearedOpt hB sB bins) sB
                    (fun p => binIdxF bins lo hi (cabs p.r p.i)) ps,
                  clearedOpt hL sL bins,
                  outIf wantMin (.q lo), outIf wantMax (.q hi)⟩ from by
              simp only [MakeHistogramCore, hmm]
              rw [if_neg hba, if_neg hdeg]]
            refine ⟨?_, ?_, ?_, ?_⟩
            · intro m hm
              refine ⟨fun _ => ?_, fun hf => Bool.noConfusion hf⟩
              exact (runClearOpt_massI ps h1 (fun p _ => binIdxF_lt hb lo hi _) hm).trans hwf
            · intro m hm
              refine ⟨fun _ => ?_, fun hf => Bool.noConfusion hf⟩
              exact (runClearOpt_massI ps h2 (fun p _ => binIdxF_lt hb lo hi _) hm).trans hwf
            · intro m hm
              refine ⟨fun _ => ?_, fun hf => Bool.noConfusion hf⟩
              exact (runClearOpt_massI ps h3 (fun p _ => binIdxF_lt hb lo hi _) hm).trans hwf
            · intro m hm
              exact ⟨fun htr => Bool.noConfusion htr, fun _ => clearedOpt_zeroI h4 hm⟩
    case rgb16 ps =>
      refine ⟨?_, ?_, ?_, ?_⟩
      · intro m hm
        refine ⟨fun _ => ?_, fun hf => Bool.noConfusion hf⟩
        exact (runClearOpt_massI ps h1 (fun p _ => binIdxU_lt hb 16 _) hm).trans hwf
      · intro m hm
        refine ⟨fun _ => ?_, fun hf => Bool.noConfusion hf⟩
        exact (runClearOpt_massI ps h2 (fun p _ => binIdxU_lt hb 16 _) hm).trans hwf
      · intro m hm
        refine ⟨fun _ => ?_, fun hf => Bool.noConfusion hf⟩
        exact (runClearOpt_massI ps h3 (fun p _ => binIdxU_lt hb 16 _) hm).trans hwf
      · intro m hm
        refine ⟨fun _ => ?_, fun hf => Bool.noConfusion hf⟩
        exact (runClearOpt_massI ps h4 (fun p _ => binIdxU_lt hb 16 _) hm).trans hwf
    case rgb32w ps =>
      refine ⟨?_, ?_, ?_, ?_⟩
      · intro m hm
        refine ⟨fun _ => ?_, fun hf => Bool.noConfusion hf⟩
        exact (runClearOpt_massI ps h1 (fun p _ => binIdxU_lt hb 32 _) hm).trans hwf
      · intro m hm
        refine ⟨fun _ => ?_, fun hf => Bool.noConfusion hf⟩
        exact (runClearOpt_massI ps h2 (fun p _ => binIdxU_lt hb 32 _) hm).trans hwf
      · intro m hm
        refine ⟨fun _ => ?_, fun hf => Bool.noConfusion hf⟩
        exact (runClearOpt_massI ps h3 (fun p _ => binIdxU_lt hb 32 _) hm).trans hwf
      · intro m hm
        refine ⟨fun _ => ?_, fun hf => Bool.noConfusion hf⟩
        exact (runClearOpt_massI ps h4 (fun p _ => binIdxU_lt hb 32 _) hm).trans hwf
    case u16 ps =>
      refine ⟨?_, ?_, ?_, ?_⟩
      · intro m hm
        refine ⟨fun _ => ?_, fun hf => Bool.noConfusion hf⟩
        exact (runClearOpt_massI ps h1 (fun p _ => binIdxU_lt hb 16 p) hm).trans hwf
      · intro m hm
        exact ⟨fun htr => Bool.noConfusion htr, fun _ => clearedOpt_zeroI h2 hm⟩
      · intro m hm
        exact ⟨fun htr => Bool.noConfusion htr, fun _ => clearedOpt_zeroI h3 hm⟩
      · intro m hm
        exact ⟨fun htr => Bool.noConfusion htr, fun _ => clearedOpt_zeroI h4 hm⟩
    case u32 ps =>
      refine ⟨?_, ?_, ?_, ?_⟩
      · intro m hm
        refine ⟨fun _ => ?_, fun hf => Bool.noConfusion hf⟩
        exact (runClearOpt_massI ps h1 (fun p _ => binIdxU_lt hb 32 p) hm).trans hwf
      · intro m hm
        exact ⟨fun htr => Bool.noConfusion htr, fun _ => clearedOpt_zeroI h2 hm⟩
      · intro m hm
        exact ⟨fun htr => Bool.noConfusion htr, fun _ => clearedOpt_zeroI h3 hm⟩
      · intro m hm
        exact ⟨fun htr => Bool.noConfusion htr, fun _ => clearedOpt_zeroI h4 hm⟩
    case i16 ps =>
      refine ⟨?_, ?_, ?_, ?_⟩
      · intro m hm
        refine ⟨fun _ => ?_, fun hf => Bool.noConfusion hf⟩
        exact (runClearOpt_massI ps h1 (fun p _ => binIdxS_lt hb 16 p) hm).trans hwf
      · intro m hm
        exact ⟨fun htr => Bool.noConfusion htr, fun _ => clearedOpt_zeroI h2 hm⟩
      · intro m hm
        exact ⟨fun htr => Bool.noConfusion htr, fun _ => clearedOpt_zeroI h3 hm⟩
      · intro m hm
        exact ⟨fun htr => Bool.noConfusion htr, fun _ => clearedOpt_zeroI h4 hm⟩
    case i32 ps =>
      refine ⟨?_, ?_, ?_, ?_⟩
      · intro m hm
        refine ⟨fun _ => ?_, fun hf => Bool.noConfusion hf⟩
        exact (runClearOpt_massI ps h1 (fun p _ => binIdxS_lt hb 32 p) hm).trans hwf
      · intro m hm
        exact ⟨fun htr => Bool.noConfusion htr, fun _ => clearedOpt_zeroI h2 hm⟩
      · intro m hm
        exact ⟨fun htr => Bool.noConfusion htr, fun _ => clearedOpt_zeroI h3 hm⟩
      · intro m hm
        exact ⟨fun htr => Bool.noConfusion htr, fun _ => clearedOpt_zeroI h4 hm⟩
    case other => exact Bool.noConfusion hok

/-- Witness for C1 (amended): a 3×1 8-bit grayscale bitmap with 4 bins
and stride 2 conserves pixel mass in the driven buffer. -/
theorem histogram_mass_conservation_witness :
    ((FreeImage_MakeHistogram (fun _ _ => 0) ⟨3, 1, true, BitmapData.u8 [0, 1, 1]⟩
        4 false false (some fun _ => 0) 2 none 1 none 1 none 1).hR.map
      (fun m => histSum m 2 4)) = some (3 * 1) := by
  have h := (histogram_mass_conservation_amended (fun _ _ => 0)
    ⟨3, 1, true, BitmapData.u8 [0, 1, 1]⟩ 4 false false
    (some fun _ => 0) 2 none 1 none 1 none 1 rfl rfl).1
  obtain ⟨m, hm⟩ : ∃ m, (FreeImage_MakeHistogram (fun _ _ => 0)
      ⟨3, 1, true, BitmapData.u8 [0, 1, 1]⟩ 4 false false
      (some fun _ => 0) 2 none 1 none 1 none 1).hR = some m := ⟨_, rfl⟩
  rw [hm]
  show some (histSum m 2 4) = some (3 * 1)
  rw [(h m hm).1 rfl]

end FreeImageRe
